import Mathlib

/-! # Shallow embedding of the cross-exchange spread backtest engine

This file embeds the core of the `sim-backtest` service (files
`engine/orderbook.py`, `engine/slippage.py`, `engine/simulator.py`,
`engine/backtest.py`) and proves properties of the embedding.

Conventions of the embedding:
* Python `Decimal` values are modelled by `ℚ` (exact decimal arithmetic);
* timestamps (`datetime`) are natural numbers (microseconds since epoch),
  timedeltas are naturals as well;
* Python dicts that are iterated in insertion order are modelled by
  association lists that append fresh keys at the end and update existing
  keys in place;
* `uuid4()` trade identifiers are modelled by an identifier supply
  `ℕ → ι` applied to a per-run counter, reflecting that each call returns
  a fresh, unpredictable value;
* the `Decimal ** Decimal("0.5")` and float `** 0.5` square roots used by
  the risk metrics are abstracted as an explicit function parameter
  (they are deterministic but not rational-valued).
-/

namespace FuturesArb

/-- A single price level of an L2 order book (`OrderbookLevel` in `orderbook.py`). -/
structure OrderbookLevel where
  price : ℚ
  quantity : ℚ
deriving DecidableEq

/-- An L2 order-book snapshot (`OrderbookSnapshot` in `orderbook.py`). -/
structure OrderbookSnapshot where
  exchange : String
  symbol : String
  timestamp : ℕ
  bids : List OrderbookLevel
  asks : List OrderbookLevel
  sequence : ℕ
deriving DecidableEq

/-- `OrderbookSnapshot.best_bid`: first (highest) bid level, if any. -/
def OrderbookSnapshot.best_bid (b : OrderbookSnapshot) : Option OrderbookLevel :=
  b.bids.head?

/-- `OrderbookSnapshot.best_ask`: first (lowest) ask level, if any. -/
def OrderbookSnapshot.best_ask (b : OrderbookSnapshot) : Option OrderbookLevel :=
  b.asks.head?

/-- Fee schedule of a venue (`FeeStructure` in `slippage.py`). -/
structure FeeStructure where
  maker_fee_bps : ℚ
  taker_fee_bps : ℚ
deriving DecidableEq

/-- `FeeStructure.get_fee`: fee rate as a fraction (bps / 10000). -/
def FeeStructure.get_fee (f : FeeStructure) (is_maker : Bool) : ℚ :=
  (if is_maker then f.maker_fee_bps else f.taker_fee_bps) / 10000

/-- The default `FeeStructure()` (2 bps maker, 5 bps taker). -/
def defaultFeeStructure : FeeStructure := ⟨2, 5⟩

/-- The `EXCHANGE_FEES` table from `slippage.py`. -/
def EXCHANGE_FEES (name : String) : Option FeeStructure :=
  if name = "binance" then some ⟨2, 4⟩
  else if name = "bybit" then some ⟨1, 6⟩
  else if name = "okx" then some ⟨2, 5⟩
  else if name = "kucoin" then some ⟨2, 6⟩
  else if name = "gate" then some ⟨2, 5⟩
  else if name = "mexc" then some ⟨0, 2⟩
  else if name = "bitget" then some ⟨2, 6⟩
  else if name = "bingx" then some ⟨2, 5⟩
  else if name = "coinex" then some ⟨3, 5⟩
  else if name = "lbank" then some ⟨2, 6⟩
  else if name = "htx" then some ⟨2, 5⟩
  else none

/-- ASCII lower-casing, standing for Python `str.lower()` (all venue names in
the fee table are ASCII). -/
def lowerStr (s : String) : String := String.mk (s.data.map Char.toLower)

/-- `SlippageCalculator.get_fees`: table lookup with a default fallback. -/
def getFees (default_fees : FeeStructure) (exchange : String) : FeeStructure :=
  (EXCHANGE_FEES (lowerStr exchange)).getD default_fees

/-- Side of a simulated execution (`TradeSide` in `slippage.py`). -/
inductive TradeSide
  | BUY
  | SELL
deriving DecidableEq

/-- Result record of a slippage calculation (`SlippageResult` in `slippage.py`). -/
structure SlippageResult where
  expected_price : ℚ
  actual_price : ℚ
  slippage_abs : ℚ
  slippage_bps : ℚ
  total_cost : ℚ
  filled_quantity : ℚ
  unfilled_quantity : ℚ
  fills : List (ℚ × ℚ)
  insufficient_liquidity : Bool
deriving DecidableEq

/-- The book walk of `SlippageCalculator.calculate` (`slippage.py` lines 149-157):
walks the levels from the top, filling `min remaining level.quantity` per level
and stopping when nothing remains.  Returns the per-level fills, the total
consumed value `Σ price·qty` and the remaining (unfilled) size. -/
def walkLevels : List OrderbookLevel → ℚ → List (ℚ × ℚ) × ℚ × ℚ
  | [], remaining => ([], 0, remaining)
  | l :: ls, remaining =>
    if remaining ≤ 0 then ([], 0, remaining)
    else
      let fq := min remaining l.quantity
      let rest := walkLevels ls (remaining - fq)
      ((l.price, fq) :: rest.1, fq * l.price + rest.2.1, rest.2.2)

/-- `SlippageCalculator.calculate` from `slippage.py` (lines 104-202). -/
def calculate (default_fees : FeeStructure) (orderbook : OrderbookSnapshot)
    (side : TradeSide) (size_in_coins : ℚ)
    (include_fees : Bool := true) (is_aggressive : Bool := true) : SlippageResult :=
  let levels := if side = TradeSide.BUY then orderbook.asks else orderbook.bids
  match levels with
  | [] =>
    { expected_price := 0, actual_price := 0, slippage_abs := 0, slippage_bps := 0,
      total_cost := 0, filled_quantity := 0, unfilled_quantity := size_in_coins,
      fills := [], insufficient_liquidity := true }
  | l0 :: _ =>
    let expected_price := l0.price
    let w := walkLevels levels size_in_coins
    let total_value := w.2.1
    let remaining := w.2.2
    let filled_quantity := size_in_coins - remaining
    if filled_quantity = 0 then
      { expected_price := expected_price, actual_price := 0, slippage_abs := 0,
        slippage_bps := 0, total_cost := 0, filled_quantity := 0,
        unfilled_quantity := size_in_coins, fills := [], insufficient_liquidity := true }
    else
      let actual_price := total_value / filled_quantity
      let slip :=
        if side = TradeSide.BUY then actual_price - expected_price
        else expected_price - actual_price
      let slippage_bps := if expected_price > 0 then slip / expected_price * 10000 else 0
      let fee_amount :=
        if include_fees then
          total_value * ((getFees default_fees orderbook.exchange).get_fee (!is_aggressive))
        else 0
      { expected_price := expected_price, actual_price := actual_price,
        slippage_abs := |slip|, slippage_bps := |slippage_bps|,
        total_cost := total_value + fee_amount,
        filled_quantity := filled_quantity, unfilled_quantity := remaining,
        fills := w.1, insufficient_liquidity := decide (remaining > 0) }

/-- A book side whose levels all carry positive quantity (well-formed book,
spec data model: price level quantity is strictly positive). -/
def posLevels (levels : List OrderbookLevel) : Prop :=
  ∀ l ∈ levels, 0 < l.quantity

/-- Total quantity of a list of `(price, quantity)` fills. -/
def sumQ (l : List (ℚ × ℚ)) : ℚ := (l.map Prod.snd).sum

/-- Total value `Σ price·qty` of a list of `(price, quantity)` fills. -/
def sumV (l : List (ℚ × ℚ)) : ℚ := (l.map (fun pq => pq.1 * pq.2)).sum

theorem sumQ_cons (x : ℚ × ℚ) (l : List (ℚ × ℚ)) : sumQ (x :: l) = x.2 + sumQ l := by
  simp [sumQ]

theorem sumV_cons (x : ℚ × ℚ) (l : List (ℚ × ℚ)) :
    sumV (x :: l) = x.1 * x.2 + sumV l := by
  simp [sumV]

theorem sumQ_nonneg {l : List (ℚ × ℚ)} (h : ∀ x ∈ l, 0 < x.2) : 0 ≤ sumQ l := by
  induction l with
  | nil => simp [sumQ]
  | cons x xs ih =>
    rw [sumQ_cons]
    have hx := h x (List.mem_cons_self ..)
    have := ih (fun y hy => h y (List.mem_cons_of_mem _ hy))
    linarith

theorem sumQ_pos {l : List (ℚ × ℚ)} (hne : l ≠ []) (h : ∀ x ∈ l, 0 < x.2) :
    0 < sumQ l := by
  cases l with
  | nil => cases hne rfl
  | cons x xs =>
    rw [sumQ_cons]
    have hx := h x (List.mem_cons_self ..)
    have := sumQ_nonneg (fun y hy => h y (List.mem_cons_of_mem _ hy))
    linarith

/-- Weighted-average lower bound: some fill price is below the average,
in the multiplied-out form `a.1 * sumQ l ≤ sumV l`. -/
theorem vwap_lower {l : List (ℚ × ℚ)} (hne : l ≠ []) (h : ∀ x ∈ l, 0 < x.2) :
    ∃ a ∈ l, a.1 * sumQ l ≤ sumV l := by
  induction l with
  | nil => cases hne rfl
  | cons x xs ih =>
    rcases eq_or_ne xs [] with hxs | hxs
    · subst hxs
      exact ⟨x, List.mem_cons_self .., by simp [sumQ, sumV]⟩
    · obtain ⟨a, ha, hle⟩ := ih hxs (fun y hy => h y (List.mem_cons_of_mem _ hy))
      have hx2 : 0 < x.2 := h x (List.mem_cons_self ..)
      have hq : 0 ≤ sumQ xs :=
        sumQ_nonneg (fun y hy => h y (List.mem_cons_of_mem _ hy))
      by_cases hax : a.1 ≤ x.1
      · refine ⟨a, List.mem_cons_of_mem _ ha, ?_⟩
        rw [sumQ_cons, sumV_cons]
        nlinarith
      · push_neg at hax
        refine ⟨x, List.mem_cons_self .., ?_⟩
        rw [sumQ_cons, sumV_cons]
        nlinarith

/-- Weighted-average upper bound: some fill price is above the average. -/
theorem vwap_upper {l : List (ℚ × ℚ)} (hne : l ≠ []) (h : ∀ x ∈ l, 0 < x.2) :
    ∃ a ∈ l, sumV l ≤ a.1 * sumQ l := by
  induction l with
  | nil => cases hne rfl
  | cons x xs ih =>
    rcases eq_or_ne xs [] with hxs | hxs
    · subst hxs
      exact ⟨x, List.mem_cons_self .., by simp [sumQ, sumV]⟩
    · obtain ⟨a, ha, hle⟩ := ih hxs (fun y hy => h y (List.mem_cons_of_mem _ hy))
      have hx2 : 0 < x.2 := h x (List.mem_cons_self ..)
      have hq : 0 ≤ sumQ xs :=
        sumQ_nonneg (fun y hy => h y (List.mem_cons_of_mem _ hy))
      by_cases hax : x.1 ≤ a.1
      · refine ⟨a, List.mem_cons_of_mem _ ha, ?_⟩
        rw [sumQ_cons, sumV_cons]
        nlinarith
      · push_neg at hax
        refine ⟨x, List.mem_cons_self .., ?_⟩
        rw [sumQ_cons, sumV_cons]
        nlinarith

/-- The book walk reports value and remainder consistent with its fills. -/
theorem walkLevels_spec (levels : List OrderbookLevel) (r : ℚ) :
    (walkLevels levels r).2.1 = sumV (walkLevels levels r).1 ∧
    (walkLevels levels r).2.2 = r - sumQ (walkLevels levels r).1 := by
  induction levels generalizing r with
  | nil => simp [walkLevels, sumQ, sumV]
  | cons l ls ih =>
    by_cases hr : r ≤ 0
    · simp [walkLevels, hr, sumQ, sumV]
    · have := ih (r - min r l.quantity)
      simp only [walkLevels, if_neg hr]
      constructor
      · rw [sumV_cons]
        simp only [this.1]
        ring
      · rw [sumQ_cons]
        simp only [this.2]
        ring

/-- Every fill produced by the walk has positive quantity, when every book
level does. -/
theorem walkLevels_fills_pos {levels : List OrderbookLevel} (hpos : posLevels levels)
    (r : ℚ) : ∀ pq ∈ (walkLevels levels r).1, 0 < pq.2 := by
  induction levels generalizing r with
  | nil => simp [walkLevels]
  | cons l ls ih =>
    by_cases hr : r ≤ 0
    · simp [walkLevels, hr]
    · push_neg at hr
      simp only [walkLevels, if_neg (not_le_of_lt hr)]
      intro pq hpq
      rcases List.mem_cons.mp hpq with h | h
      · subst h
        exact lt_min hr (hpos l (List.mem_cons_self ..))
      · exact ih (fun x hx => hpos x (List.mem_cons_of_mem _ hx)) _ pq h

/-- Concrete two-level book used by witnesses of the slippage theorems. -/
def sampleBook : OrderbookSnapshot :=
  { exchange := "binance", symbol := "BTC-USDT-PERP", timestamp := 0,
    bids := [⟨100, 2⟩], asks := [⟨101, 2⟩, ⟨102, 4⟩], sequence := 0 }

/-- C7: for every slippage calculation on a well-formed book (all levels of
positive quantity, per the data model) and non-negative requested size:
`filled_quantity + unfilled_quantity` equals the requested size,
`slippage_bps` is non-negative, and whenever there is at least one fill the
volume-weighted `actual_price` lies between the minimum and the maximum fill
price. -/
theorem slippage_result_invariants (fees : FeeStructure) (book : OrderbookSnapshot)
    (side : TradeSide) (size : ℚ) (incf isagg : Bool)
    (hsize : 0 ≤ size) (hbids : posLevels book.bids) (hasks : posLevels book.asks) :
    (calculate fees book side size incf isagg).filled_quantity +
      (calculate fees book side size incf isagg).unfilled_quantity = size ∧
    0 ≤ (calculate fees book side size incf isagg).slippage_bps ∧
    ((calculate fees book side size incf isagg).fills ≠ [] →
      (∃ f ∈ (calculate fees book side size incf isagg).fills,
        f.1 ≤ (calculate fees book side size incf isagg).actual_price) ∧
      (∃ f ∈ (calculate fees book side size incf isagg).fills,
        (calculate fees book side size incf isagg).actual_price ≤ f.1)) := by
  have hL : posLevels (if side = TradeSide.BUY then book.asks else book.bids) := by
    cases side <;> simp [hasks, hbids]
  simp only [calculate]
  split
  · exact ⟨by simp, le_refl 0, fun h => absurd rfl h⟩
  · rename_i l0 ls heq
    rw [heq] at hL ⊢
    obtain ⟨hV, hR⟩ := walkLevels_spec (l0 :: ls) size
    have hfills : ∀ pq ∈ (walkLevels (l0 :: ls) size).1, 0 < pq.2 :=
      walkLevels_fills_pos hL size
    by_cases h0 : size - (walkLevels (l0 :: ls) size).2.2 = 0
    · simp only [if_pos h0]
      exact ⟨by simp, le_refl 0, fun h => absurd rfl h⟩
    · simp only [if_neg h0]
      refine ⟨by ring, abs_nonneg _, fun hne => ?_⟩
      have hQ : size - (walkLevels (l0 :: ls) size).2.2 =
          sumQ (walkLevels (l0 :: ls) size).1 := by
        rw [hR]; ring
      have hQpos : 0 < sumQ (walkLevels (l0 :: ls) size).1 := sumQ_pos hne hfills
      constructor
      · obtain ⟨a, ha, hle⟩ := vwap_lower hne hfills
        refine ⟨a, ha, ?_⟩
        rw [hQ, le_div_iff₀ hQpos, hV]
        exact hle
      · obtain ⟨a, ha, hle⟩ := vwap_upper hne hfills
        refine ⟨a, ha, ?_⟩
        rw [hQ, div_le_iff₀ hQpos, hV]
        exact hle

/-- Witness for `slippage_result_invariants`: concrete book, size 3. -/
theorem slippage_result_invariants_witness :
    ((0 : ℚ) ≤ 3 ∧ posLevels sampleBook.bids ∧ posLevels sampleBook.asks) ∧
    ((calculate defaultFeeStructure sampleBook TradeSide.BUY 3 true true).filled_quantity +
      (calculate defaultFeeStructure sampleBook TradeSide.BUY 3 true true).unfilled_quantity = 3 ∧
    0 ≤ (calculate defaultFeeStructure sampleBook TradeSide.BUY 3 true true).slippage_bps ∧
    ((calculate defaultFeeStructure sampleBook TradeSide.BUY 3 true true).fills ≠ [] →
      (∃ f ∈ (calculate defaultFeeStructure sampleBook TradeSide.BUY 3 true true).fills,
        f.1 ≤ (calculate defaultFeeStructure sampleBook TradeSide.BUY 3 true true).actual_price) ∧
      (∃ f ∈ (calculate defaultFeeStructure sampleBook TradeSide.BUY 3 true true).fills,
        (calculate defaultFeeStructure sampleBook TradeSide.BUY 3 true true).actual_price ≤ f.1))) :=
  ⟨⟨by norm_num, by norm_num [posLevels, sampleBook], by norm_num [posLevels, sampleBook]⟩,
    slippage_result_invariants defaultFeeStructure sampleBook TradeSide.BUY 3 true true
      (by norm_num) (by norm_num [posLevels, sampleBook]) (by norm_num [posLevels, sampleBook])⟩

/-- C8 (amended): the `insufficient_liquidity` flag is true exactly when some
size remained unfilled, the consumed side was empty, or nothing was filled at
all (in particular for a zero requested size). -/
theorem insufficient_liquidity_characterization (fees : FeeStructure)
    (book : OrderbookSnapshot) (side : TradeSide) (size : ℚ) (incf isagg : Bool) :
    (calculate fees book side size incf isagg).insufficient_liquidity = true ↔
      (0 < (calculate fees book side size incf isagg).unfilled_quantity ∨
       (if side = TradeSide.BUY then book.asks else book.bids) = [] ∨
       (calculate fees book side size incf isagg).filled_quantity = 0) := by
  simp only [calculate]
  split
  · rename_i heq
    simp [heq]
  · rename_i l0 ls heq
    rw [heq]
    by_cases h0 : size - (walkLevels (l0 :: ls) size).2.2 = 0
    · simp [if_pos h0]
    · simp only [if_neg h0]
      simp [h0]

/-- C8 counterexample: a zero requested size against a non-empty side yields
`insufficient_liquidity = true` (the `filled_quantity == 0` early return of
`calculate`), not `false` as the claim states, and this is not explained by
unfilled size (the unfilled quantity is 0) nor by an empty side. -/
theorem insufficient_liquidity_zero_size_cx :
    (calculate defaultFeeStructure sampleBook TradeSide.BUY 0 true true).insufficient_liquidity
        = true ∧
    sampleBook.asks ≠ [] ∧
    (calculate defaultFeeStructure sampleBook TradeSide.BUY 0 true true).unfilled_quantity = 0 := by
  refine ⟨?_, by simp [sampleBook], ?_⟩ <;> norm_num [calculate, walkLevels, sampleBook]


/-! ## Simulated exchange (`simulator.py`)

Order bookkeeping timestamps (`created_at`, `updated_at`) and the log/callback
plumbing are omitted; `uuid4()` order identifiers are modelled by the
exchange's monotone counter. -/

/-- `OrderSide` from `simulator.py`. -/
inductive OrderSide
  | BUY
  | SELL
deriving DecidableEq

/-- `OrderType` from `simulator.py`. -/
inductive OrderType
  | LIMIT
  | MARKET
deriving DecidableEq

/-- `OrderStatus` from `simulator.py`. -/
inductive OrderStatus
  | PENDING
  | OPEN
  | PARTIALLY_FILLED
  | FILLED
  | CANCELLED
  | REJECTED
deriving DecidableEq

/-- A single fill (`SimulatedFill` in `simulator.py`). -/
structure SimulatedFill where
  order_id : ℕ
  timestamp : ℕ
  price : ℚ
  quantity : ℚ
  fee : ℚ
  is_maker : Bool
deriving DecidableEq

/-- A simulated order (`SimulatedOrder` in `simulator.py`). -/
structure SimulatedOrder where
  order_id : ℕ
  symbol : String
  side : OrderSide
  order_type : OrderType
  price : Option ℚ
  quantity : ℚ
  filled_quantity : ℚ
  status : OrderStatus
  fills : List SimulatedFill
deriving DecidableEq

/-- `SimulatedOrder.remaining_quantity`. -/
def SimulatedOrder.remaining_quantity (o : SimulatedOrder) : ℚ :=
  o.quantity - o.filled_quantity

/-- `SimulatedOrder.add_fill` (`simulator.py` lines 102-111). -/
def SimulatedOrder.add_fill (o : SimulatedOrder) (f : SimulatedFill) : SimulatedOrder :=
  let filled := o.filled_quantity + f.quantity
  { o with
    fills := o.fills ++ [f], filled_quantity := filled,
    status :=
      if o.quantity ≤ filled then OrderStatus.FILLED
      else if 0 < filled then OrderStatus.PARTIALLY_FILLED
      else o.status }

/-- The per-level break condition of `_try_fill_order` for limit orders: a buy
stops at a level priced above the limit, a sell at a level priced below.  A
limit order always carries a price in reachable states (`place_order` rejects
limit orders without one); a missing price is treated as no bound. -/
def priceBlocked (order_type : OrderType) (side : OrderSide) (price : Option ℚ)
    (l : OrderbookLevel) : Bool :=
  order_type = OrderType.LIMIT &&
    (match price with
     | some p => if side = OrderSide.BUY then p < l.price else l.price < p
     | none => false)

/-- The level walk of `_try_fill_order` (`simulator.py` lines 308-348):
price-bounded for limit orders, unbounded for market orders. -/
def matchLevels (order_type : OrderType) (side : OrderSide) (price : Option ℚ) :
    List OrderbookLevel → ℚ → List (ℚ × ℚ)
  | [], _ => []
  | l :: ls, remaining =>
    if remaining ≤ 0 then []
    else if priceBlocked order_type side price l then []
    else
      let fq := min remaining l.quantity
      (l.price, fq) :: matchLevels order_type side price ls (remaining - fq)

/-- The maker classification of `_try_fill_order` (`simulator.py` lines
326-331), evaluated against the book the order is being filled from. -/
def makerFlag (o : SimulatedOrder) (book : OrderbookSnapshot) : Bool :=
  match book.best_ask, book.best_bid with
  | some bestAsk, some bestBid =>
    o.order_type = OrderType.LIMIT &&
      (match o.price with
       | some p =>
         (o.side = OrderSide.BUY && p < bestAsk.price) ||
         (o.side = OrderSide.SELL && bestBid.price < p)
       | none => false)
  | _, _ => false

/-- The fill constructor used by `_try_fill_order` for a given order, book and
fee schedule. -/
def mkFill (fee : FeeStructure) (o : SimulatedOrder) (book : OrderbookSnapshot)
    (pq : ℚ × ℚ) : SimulatedFill :=
  { order_id := o.order_id, timestamp := book.timestamp, price := pq.1,
    quantity := pq.2, fee := pq.2 * pq.1 * fee.get_fee (makerFlag o book),
    is_maker := makerFlag o book }

/-- `SimulatedExchange._try_fill_order` (`simulator.py` lines 281-366).  The
maker flag and the per-fill fee are those computed in the Python loop; the
flag does not depend on the level, so it is computed once. -/
def try_fill_order (fee : FeeStructure) (o : SimulatedOrder)
    (book : OrderbookSnapshot) : SimulatedOrder :=
  if o.status = OrderStatus.FILLED ∨ o.status = OrderStatus.CANCELLED then o
  else if o.remaining_quantity ≤ 0 then o
  else
    let levels := if o.side = OrderSide.BUY then book.asks else book.bids
    if levels = [] then o
    else
      let raw := matchLevels o.order_type o.side o.price levels o.remaining_quantity
      (raw.map (mkFill fee o book)).foldl SimulatedOrder.add_fill o

/-- State of a `SimulatedExchange`: the order map, the open-order subset (as
ids), the current book, and the id counter. -/
structure SimulatedExchange where
  exchange_name : String
  fee_structure : FeeStructure
  orders : List SimulatedOrder
  open_ids : List ℕ
  current_book : Option OrderbookSnapshot
  next_id : ℕ
deriving DecidableEq

/-- A fresh `SimulatedExchange(name)` with the fee schedule looked up from
`EXCHANGE_FEES`. -/
def mkSimulatedExchange (name : String) : SimulatedExchange :=
  { exchange_name := name,
    fee_structure := (EXCHANGE_FEES (lowerStr name)).getD defaultFeeStructure,
    orders := [], open_ids := [], current_book := none, next_id := 0 }

/-- Dictionary read `self._orders.get(order_id)`. -/
def lookupOrder (orders : List SimulatedOrder) (oid : ℕ) : Option SimulatedOrder :=
  orders.find? (fun o => o.order_id = oid)

/-- In-place replacement of the order stored under `oid` (shared-object
mutation in Python). -/
def setOrder (orders : List SimulatedOrder) (oid : ℕ) (o' : SimulatedOrder) :
    List SimulatedOrder :=
  orders.map (fun o => if o.order_id = oid then o' else o)

/-- The order record created by `place_order` before any immediate fill. -/
def freshOrder (oid : ℕ) (symbol : String) (side : OrderSide)
    (order_type : OrderType) (price : Option ℚ) (quantity : ℚ) : SimulatedOrder :=
  { order_id := oid, symbol := symbol, side := side, order_type := order_type,
    price := price, quantity := quantity, filled_quantity := 0,
    status := OrderStatus.OPEN, fills := [] }

/-- `SimulatedExchange.place_order` (`simulator.py` lines 180-237).  A limit
order without a price raises `ValueError` in Python and leaves the state
unchanged, which is how it is modelled here. -/
def SimulatedExchange.place_order (ex : SimulatedExchange) (symbol : String)
    (side : OrderSide) (order_type : OrderType) (quantity : ℚ)
    (price : Option ℚ) : SimulatedExchange :=
  if order_type = OrderType.LIMIT ∧ price = none then ex
  else
    let o := freshOrder ex.next_id symbol side order_type price quantity
    let o :=
      match ex.current_book with
      | some book =>
        if book.symbol = symbol then try_fill_order ex.fee_structure o book else o
      | none => o
    { ex with
      orders := ex.orders ++ [o], open_ids := ex.open_ids ++ [ex.next_id],
      next_id := ex.next_id + 1 }

/-- The tail of one open-order iteration of `update_orderbook`: store the
re-matched order and drop it from the open set when it has completed. -/
def processFilled (ex : SimulatedExchange) (oid : ℕ) (o' : SimulatedOrder) :
    SimulatedExchange :=
  if o'.status = OrderStatus.FILLED ∨ o'.status = OrderStatus.CANCELLED then
    { ex with
      orders := setOrder ex.orders oid o',
      open_ids := ex.open_ids.filter (fun i => i ≠ oid) }
  else
    { ex with orders := setOrder ex.orders oid o' }

/-- One iteration of the open-order scan in `update_orderbook`: re-match a
same-symbol order against the new book. -/
def processOpenOrder (book : OrderbookSnapshot) (ex : SimulatedExchange)
    (oid : ℕ) : SimulatedExchange :=
  match lookupOrder ex.orders oid with
  | none => ex
  | some o =>
    if o.symbol ≠ book.symbol then ex
    else processFilled ex oid (try_fill_order ex.fee_structure o book)

/-- `SimulatedExchange.update_orderbook` (`simulator.py` lines 157-178). -/
def SimulatedExchange.update_orderbook (ex : SimulatedExchange)
    (book : OrderbookSnapshot) : SimulatedExchange :=
  if book.exchange ≠ ex.exchange_name then ex
  else
    let ex' := { ex with current_book := some book }
    ex'.open_ids.foldl (processOpenOrder book) ex'

/-- `SimulatedExchange.cancel_order` (`simulator.py` lines 239-268). -/
def SimulatedExchange.cancel_order (ex : SimulatedExchange) (oid : ℕ) :
    SimulatedExchange × Bool :=
  match lookupOrder ex.orders oid with
  | none => (ex, false)
  | some o =>
    if o.status = OrderStatus.FILLED ∨ o.status = OrderStatus.CANCELLED then
      (ex, false)
    else
      ({ ex with
          orders := setOrder ex.orders oid { o with status := OrderStatus.CANCELLED },
          open_ids := ex.open_ids.filter (fun i => i ≠ oid) }, true)

/-- An external operation on a simulated exchange. -/
inductive ExchangeOp
  | place (symbol : String) (side : OrderSide) (order_type : OrderType)
      (quantity : ℚ) (price : Option ℚ)
  | update (book : OrderbookSnapshot)
  | cancel (oid : ℕ)

/-- Apply one operation. -/
def applyOp (ex : SimulatedExchange) : ExchangeOp → SimulatedExchange
  | .place s sd t q p => ex.place_order s sd t q p
  | .update b => ex.update_orderbook b
  | .cancel oid => (ex.cancel_order oid).1

/-- Apply a sequence of operations to a fresh exchange state. -/
def applyOps (ex : SimulatedExchange) (ops : List ExchangeOp) : SimulatedExchange :=
  ops.foldl applyOp ex


/-- Total quantity across a list of fills. -/
def fillsQ (fills : List SimulatedFill) : ℚ := (fills.map (fun f => f.quantity)).sum

theorem fillsQ_append (a b : List SimulatedFill) : fillsQ (a ++ b) = fillsQ a + fillsQ b := by
  simp [fillsQ]

/-- A book whose levels all have positive quantity, on both sides. -/
def PosBook (b : OrderbookSnapshot) : Prop := posLevels b.bids ∧ posLevels b.asks

/-- Per-order accounting invariant maintained by the simulated exchange. -/
def OrderInv (o : SimulatedOrder) : Prop :=
  o.filled_quantity = fillsQ o.fills ∧
  (∀ f ∈ o.fills, 0 < f.quantity) ∧
  (0 ≤ o.quantity → o.filled_quantity ≤ o.quantity) ∧
  (o.status = OrderStatus.FILLED → o.quantity ≤ o.filled_quantity) ∧
  (0 < o.quantity → o.quantity ≤ o.filled_quantity → o.status = OrderStatus.FILLED)

theorem fillsQ_cons (f : SimulatedFill) (fs : List SimulatedFill) :
    fillsQ (f :: fs) = f.quantity + fillsQ fs := by
  simp [fillsQ]

theorem fillsQ_nonneg {fills : List SimulatedFill}
    (h : ∀ f ∈ fills, 0 < f.quantity) : 0 ≤ fillsQ fills := by
  refine List.sum_nonneg ?_
  intro x hx
  simp only [List.mem_map] at hx
  obtain ⟨f, hf, rfl⟩ := hx
  exact le_of_lt (h f hf)

theorem OrderInv_filled_nonneg {o : SimulatedOrder} (h : OrderInv o) :
    0 ≤ o.filled_quantity := by
  rw [h.1]
  exact fillsQ_nonneg h.2.1

/-- Every fill produced by the bounded level walk has positive quantity. -/
theorem matchLevels_pos {levels : List OrderbookLevel} (hpos : posLevels levels)
    (t : OrderType) (s : OrderSide) (p : Option ℚ) (r : ℚ) :
    ∀ pq ∈ matchLevels t s p levels r, 0 < pq.2 := by
  induction levels generalizing r with
  | nil => simp [matchLevels]
  | cons l ls ih =>
    intro pq hpq
    by_cases hr : r ≤ 0
    · simp [matchLevels, hr] at hpq
    · by_cases hb : priceBlocked t s p l
      · simp [matchLevels, hr, hb] at hpq
      · simp only [matchLevels, if_neg hr, if_neg hb, List.mem_cons] at hpq
        rcases hpq with h | h
        · subst h
          push_neg at hr
          exact lt_min hr (hpos l (List.mem_cons_self ..))
        · exact ih (fun x hx => hpos x (List.mem_cons_of_mem _ hx)) _ pq h

/-- The bounded level walk never fills more than the remaining size. -/
theorem matchLevels_sumQ_le {levels : List OrderbookLevel} (hpos : posLevels levels)
    (t : OrderType) (s : OrderSide) (p : Option ℚ) (r : ℚ) (hr : 0 ≤ r) :
    sumQ (matchLevels t s p levels r) ≤ r := by
  induction levels generalizing r with
  | nil => simpa [matchLevels, sumQ] using hr
  | cons l ls ih =>
    by_cases hrle : r ≤ 0
    · simpa [matchLevels, hrle, sumQ] using hr
    · by_cases hb : priceBlocked t s p l
      · simpa [matchLevels, hrle, hb, sumQ] using hr
      · push_neg at hrle
        simp only [matchLevels, if_neg (not_le_of_lt hrle), if_neg hb]
        rw [sumQ_cons]
        have hq := hpos l (List.mem_cons_self ..)
        have hfq : min r l.quantity ≤ r := min_le_left ..
        have hrec := ih (fun x hx => hpos x (List.mem_cons_of_mem _ hx))
          (r - min r l.quantity) (by linarith)
        simp only at hrec ⊢
        linarith

/-- Folding `add_fill` over a list of fills: all identification fields are
unchanged, the filled quantity grows by the fills' total quantity, and the
fills are appended. -/
theorem addFills_fields (fs : List SimulatedFill) (o : SimulatedOrder) :
    (fs.foldl SimulatedOrder.add_fill o).order_id = o.order_id ∧
    (fs.foldl SimulatedOrder.add_fill o).symbol = o.symbol ∧
    (fs.foldl SimulatedOrder.add_fill o).quantity = o.quantity ∧
    (fs.foldl SimulatedOrder.add_fill o).filled_quantity
      = o.filled_quantity + fillsQ fs ∧
    (fs.foldl SimulatedOrder.add_fill o).fills = o.fills ++ fs := by
  induction fs generalizing o with
  | nil => simp [fillsQ]
  | cons f fs ih =>
    obtain ⟨h1, h2, h3, h4, h5⟩ := ih (o.add_fill f)
    have ha : (o.add_fill f).order_id = o.order_id ∧ (o.add_fill f).symbol = o.symbol ∧
        (o.add_fill f).quantity = o.quantity ∧
        (o.add_fill f).filled_quantity = o.filled_quantity + f.quantity ∧
        (o.add_fill f).fills = o.fills ++ [f] := by
      refine ⟨rfl, rfl, rfl, rfl, rfl⟩
    simp only [List.foldl_cons]
    refine ⟨?_, ?_, ?_, ?_, ?_⟩
    · rw [h1, ha.1]
    · rw [h2, ha.2.1]
    · rw [h3, ha.2.2.1]
    · rw [h4, ha.2.2.2.1, fillsQ_cons]
      ring
    · rw [h5, ha.2.2.2.2]
      simp

/-- Folding `add_fill` over a non-empty list of positive fills on an order
with non-negative filled quantity: the final status is decided by comparing
the final filled quantity with the order quantity. -/
theorem addFills_status (fs : List SimulatedFill) (o : SimulatedOrder)
    (hne : fs ≠ []) (h0 : 0 ≤ o.filled_quantity) (hfs : ∀ f ∈ fs, 0 < f.quantity) :
    (fs.foldl SimulatedOrder.add_fill o).status =
      if o.quantity ≤ o.filled_quantity + fillsQ fs then OrderStatus.FILLED
      else OrderStatus.PARTIALLY_FILLED := by
  induction fs generalizing o with
  | nil => cases hne rfl
  | cons f fs ih =>
    have hfq : 0 < f.quantity := hfs f (List.mem_cons_self ..)
    rcases eq_or_ne fs [] with hfs0 | hfs0
    · subst hfs0
      simp only [List.foldl_cons, List.foldl_nil, SimulatedOrder.add_fill, fillsQ,
        List.map_cons, List.map_nil, List.sum_cons, List.sum_nil]
      by_cases hcmp : o.quantity ≤ o.filled_quantity + f.quantity
      · simp [hcmp]
      · have : 0 < o.filled_quantity + f.quantity := by linarith
        simp [hcmp, this]
    · have hstep : (o.add_fill f).filled_quantity = o.filled_quantity + f.quantity ∧
          (o.add_fill f).quantity = o.quantity := by
        simp [SimulatedOrder.add_fill]
      have hrec := ih (o.add_fill f) hfs0
        (by rw [hstep.1]; linarith)
        (fun g hg => hfs g (List.mem_cons_of_mem _ hg))
      have harith : (o.add_fill f).filled_quantity + fillsQ fs =
          o.filled_quantity + fillsQ (f :: fs) := by
        rw [hstep.1, fillsQ_cons]
        ring
      simp only [List.foldl_cons, hrec, hstep.2, harith]


/-- Main-branch helper: filling an order against a generic well-formed side
preserves the per-order invariant. -/
theorem try_fill_main_inv (fee : FeeStructure) (o : SimulatedOrder)
    (book : OrderbookSnapshot) (L : List OrderbookLevel) (hposL : posLevels L)
    (h : OrderInv o) (hrem : 0 < o.remaining_quantity) :
    OrderInv (List.foldl SimulatedOrder.add_fill o
      (List.map (mkFill fee o book)
        (matchLevels o.order_type o.side o.price L o.remaining_quantity))) := by
  have hrawpos := matchLevels_pos hposL o.order_type o.side o.price o.remaining_quantity
  have hrawle := matchLevels_sumQ_le hposL o.order_type o.side o.price
    o.remaining_quantity (le_of_lt hrem)
  set raw := matchLevels o.order_type o.side o.price L o.remaining_quantity with hraw
  have hfq : fillsQ (raw.map (mkFill fee o book)) = sumQ raw := by
    simp only [fillsQ, sumQ, List.map_map]
    congr 1
  have hfpos : ∀ f ∈ raw.map (mkFill fee o book), 0 < f.quantity := by
    intro f hf
    simp only [List.mem_map] at hf
    obtain ⟨pq, hpq, rfl⟩ := hf
    exact hrawpos pq hpq
  have hfilled0 : 0 ≤ o.filled_quantity := OrderInv_filled_nonneg h
  have hqpos : 0 < o.quantity := by
    have : 0 < o.quantity - o.filled_quantity := hrem
    linarith
  obtain ⟨g1, g2, g3, g4, g5⟩ := addFills_fields (raw.map (mkFill fee o book)) o
  rcases eq_or_ne (raw.map (mkFill fee o book)) [] with hfe | hfe
  · rw [hfe]
    simpa using h
  have hst := addFills_status (raw.map (mkFill fee o book)) o hfe hfilled0 hfpos
  have hboundQ : o.filled_quantity + fillsQ (raw.map (mkFill fee o book)) ≤ o.quantity := by
    have : sumQ raw ≤ o.quantity - o.filled_quantity := hrawle
    rw [hfq]
    linarith
  refine ⟨?_, ?_, ?_, ?_, ?_⟩
  · rw [g4, g5, fillsQ_append, h.1]
  · rw [g5]
    intro f hf
    rcases List.mem_append.mp hf with hf | hf
    · exact h.2.1 f hf
    · exact hfpos f hf
  · intro _
    rw [g4, g3]
    exact hboundQ
  · intro hF
    rw [hst] at hF
    rw [g3, g4]
    by_cases hcmp : o.quantity ≤ o.filled_quantity + fillsQ (raw.map (mkFill fee o book))
    · exact hcmp
    · rw [if_neg hcmp] at hF
      cases hF
  · intro hq hle
    rw [g3] at hq
    rw [g3, g4] at hle
    rw [hst, if_pos hle]

/-- `_try_fill_order` preserves the per-order accounting invariant when the
book is well-formed. -/
theorem try_fill_OrderInv (fee : FeeStructure) (o : SimulatedOrder)
    (book : OrderbookSnapshot) (hb : PosBook book) (h : OrderInv o) :
    OrderInv (try_fill_order fee o book) := by
  have hposL : posLevels (if o.side = OrderSide.BUY then book.asks else book.bids) := by
    by_cases hs : o.side = OrderSide.BUY
    · simpa [hs] using hb.2
    · simpa [hs] using hb.1
  simp only [try_fill_order]
  split
  · exact h
  split
  · exact h
  rename_i hterm hrem
  push_neg at hrem
  rcases hcase : (if o.side = OrderSide.BUY then book.asks else book.bids)
      with _ | ⟨l0, ls⟩
  · simpa using h
  · rw [hcase] at hposL
    rw [if_neg (by simp)]
    exact try_fill_main_inv fee o book (l0 :: ls) hposL h hrem

/-- If the maker classification of `_try_fill_order` evaluates to true for an
order against a book, then that very call produces no fill at all: a buy can
only fill when the best ask is at or below its limit price, contradicting the
maker condition (symmetrically for sells).  The classification is therefore
unsatisfiable at fill time. -/
theorem makerFlag_true_no_fill (fee : FeeStructure) (o : SimulatedOrder)
    (book : OrderbookSnapshot) (hm : makerFlag o book = true) :
    try_fill_order fee o book = o := by
  unfold makerFlag at hm
  rcases hask : book.best_ask with _ | bestAsk <;> rw [hask] at hm
  · simp at hm
  rcases hbid : book.best_bid with _ | bestBid <;> rw [hbid] at hm
  · simp at hm
  simp only [Bool.and_eq_true, Bool.or_eq_true, decide_eq_true_eq] at hm
  obtain ⟨htype, hdir⟩ := hm
  rcases hpr : o.price with _ | p <;> rw [hpr] at hdir
  · simp at hdir
  simp only [Bool.or_eq_true, Bool.and_eq_true, decide_eq_true_eq] at hdir
  simp only [try_fill_order]
  split
  · rfl
  split
  · rfl
  rename_i hterm hrem
  push_neg at hrem
  rcases hdir with ⟨hbuy, hlt⟩ | ⟨hsell, hlt⟩
  · rw [if_pos hbuy]
    rcases hasks2 : book.asks with _ | ⟨a0, arest⟩
    · simp
    · have ha0 : a0 = bestAsk := by
        rw [OrderbookSnapshot.best_ask, hasks2] at hask
        simpa using hask
      have hbl : priceBlocked o.order_type o.side o.price a0 = true := by
        simp [priceBlocked, htype, hpr, hbuy, ha0, hlt]
      simp [matchLevels, not_le_of_lt hrem, hbl]
  · have hns : ¬ o.side = OrderSide.BUY := by
      rw [hsell]
      intro hc
      cases hc
    rw [if_neg hns]
    rcases hbids2 : book.bids with _ | ⟨b0, brest⟩
    · simp
    · have hb0 : b0 = bestBid := by
        rw [OrderbookSnapshot.best_bid, hbids2] at hbid
        simpa using hbid
      have hbl : priceBlocked o.order_type o.side o.price b0 = true := by
        simp [priceBlocked, htype, hpr, hsell, hb0, hlt]
      simp [matchLevels, not_le_of_lt hrem, hbl]

/-- Every fill on the result of `_try_fill_order` is either an old fill or
carries `is_maker = false`. -/
theorem try_fill_fills_not_maker (fee : FeeStructure) (o : SimulatedOrder)
    (book : OrderbookSnapshot) :
    ∀ f ∈ (try_fill_order fee o book).fills, f ∈ o.fills ∨ f.is_maker = false := by
  by_cases hm : makerFlag o book = true
  · rw [makerFlag_true_no_fill fee o book hm]
    intro f hf
    exact Or.inl hf
  · have hmf : makerFlag o book = false := by
      cases hflag : makerFlag o book
      · rfl
      · exact absurd hflag hm
    intro f hf
    simp only [try_fill_order] at hf
    split at hf
    · exact Or.inl hf
    split at hf
    · exact Or.inl hf
    rcases hcase : (if o.side = OrderSide.BUY then book.asks else book.bids)
        with _ | ⟨l0, ls⟩ <;> rw [hcase] at hf
    · rw [if_pos rfl] at hf
      exact Or.inl hf
    · rw [if_neg (by simp)] at hf
      obtain ⟨g1, g2, g3, g4, g5⟩ := addFills_fields
        (List.map (mkFill fee o book)
          (matchLevels o.order_type o.side o.price (l0 :: ls) o.remaining_quantity)) o
      rw [g5] at hf
      rcases List.mem_append.mp hf with hf | hf
      · exact Or.inl hf
      · right
        simp only [List.mem_map] at hf
        obtain ⟨pq, hpq, rfl⟩ := hf
        exact hmf



/-- Exchange-level invariant: all stored orders satisfy `OrderInv` and the
current book, if any, is well-formed. -/
def ExchangeInv (ex : SimulatedExchange) : Prop :=
  (∀ o ∈ ex.orders, OrderInv o) ∧ (∀ b, ex.current_book = some b → PosBook b)

/-- Positivity side condition on an exchange operation: books fed to
`update_orderbook` are well-formed. -/
def OpPos : ExchangeOp → Prop
  | .update b => PosBook b
  | _ => True

theorem lookupOrder_mem {orders : List SimulatedOrder} {oid : ℕ} {o : SimulatedOrder}
    (h : lookupOrder orders oid = some o) : o ∈ orders :=
  List.mem_of_find?_eq_some h

theorem setOrder_mem {orders : List SimulatedOrder} {oid : ℕ} {o' : SimulatedOrder} :
    ∀ o'' ∈ setOrder orders oid o', o'' = o' ∨ o'' ∈ orders := by
  intro o'' h
  simp only [setOrder, List.mem_map] at h
  obtain ⟨x, hx, hval⟩ := h
  by_cases hid : x.order_id = oid
  · rw [if_pos hid] at hval
    exact Or.inl hval.symm
  · rw [if_neg hid] at hval
    exact Or.inr (hval ▸ hx)

/-- A freshly created order satisfies the accounting invariant. -/
theorem freshOrder_inv (oid : ℕ) (s : String) (sd : OrderSide) (t : OrderType)
    (p : Option ℚ) (q : ℚ) : OrderInv (freshOrder oid s sd t p q) := by
  refine ⟨by simp [freshOrder, fillsQ], by simp [freshOrder],
    fun h => by simpa [freshOrder] using h, fun h => ?_, fun hq hle => ?_⟩
  · exact absurd h (by simp [freshOrder])
  · exfalso
    simp only [freshOrder] at hq hle
    linarith

theorem place_ExchangeInv (ex : SimulatedExchange) (hinv : ExchangeInv ex)
    (s : String) (sd : OrderSide) (t : OrderType) (q : ℚ) (p : Option ℚ) :
    ExchangeInv (ex.place_order s sd t q p) := by
  unfold SimulatedExchange.place_order
  split
  · exact hinv
  have hfresh := freshOrder_inv ex.next_id s sd t p q
  have ho1 : OrderInv (match ex.current_book with
      | some book =>
        if book.symbol = s then
          try_fill_order ex.fee_structure (freshOrder ex.next_id s sd t p q) book
        else freshOrder ex.next_id s sd t p q
      | none => freshOrder ex.next_id s sd t p q) := by
    cases hcb : ex.current_book with
    | none => exact hfresh
    | some book =>
      dsimp only
      by_cases hsym : book.symbol = s
      · rw [if_pos hsym]
        exact try_fill_OrderInv ex.fee_structure _ book (hinv.2 book hcb) hfresh
      · rw [if_neg hsym]
        exact hfresh
  constructor
  · intro o ho
    rcases List.mem_append.mp ho with ho | ho
    · exact hinv.1 o ho
    · rw [List.mem_singleton.mp ho]
      exact ho1
  · exact hinv.2

theorem processOpen_inv (book : OrderbookSnapshot) (hb : PosBook book)
    (ex : SimulatedExchange) (oid : ℕ) (h : ∀ o ∈ ex.orders, OrderInv o)
    (hfee : ex.fee_structure = ex.fee_structure) :
    (∀ o ∈ (processOpenOrder book ex oid).orders, OrderInv o) ∧
    (processOpenOrder book ex oid).current_book = ex.current_book := by
  unfold processOpenOrder
  cases hl : lookupOrder ex.orders oid with
  | none => exact ⟨h, rfl⟩
  | some o =>
    dsimp only
    by_cases hsym : o.symbol ≠ book.symbol
    · rw [if_pos hsym]
      exact ⟨h, rfl⟩
    · rw [if_neg hsym]
      have horders : ∀ o'' ∈ setOrder ex.orders oid
          (try_fill_order ex.fee_structure o book), OrderInv o'' := by
        intro o'' ho''
        rcases setOrder_mem o'' ho'' with rfl | ho''
        · exact try_fill_OrderInv ex.fee_structure o book hb (h o (lookupOrder_mem hl))
        · exact h o'' ho''
      unfold processFilled
      split
      · exact ⟨horders, rfl⟩
      · exact ⟨horders, rfl⟩

theorem foldl_processOpen_inv (book : OrderbookSnapshot) (hb : PosBook book) :
    ∀ (ids : List ℕ) (ex : SimulatedExchange), (∀ o ∈ ex.orders, OrderInv o) →
    (∀ o ∈ (ids.foldl (processOpenOrder book) ex).orders, OrderInv o) ∧
    (ids.foldl (processOpenOrder book) ex).current_book = ex.current_book := by
  intro ids
  induction ids with
  | nil => exact fun ex h => ⟨h, rfl⟩
  | cons i ids ih =>
    intro ex h
    have hstep := processOpen_inv book hb ex i h rfl
    have := ih (processOpenOrder book ex i) hstep.1
    exact ⟨this.1, this.2.trans hstep.2⟩

theorem update_ExchangeInv (ex : SimulatedExchange) (book : OrderbookSnapshot)
    (hinv : ExchangeInv ex) (hb : PosBook book) :
    ExchangeInv (ex.update_orderbook book) := by
  unfold SimulatedExchange.update_orderbook
  split
  · exact hinv
  have hfold := foldl_processOpen_inv book hb ex.open_ids
    { ex with current_book := some book } hinv.1
  refine ⟨hfold.1, ?_⟩
  intro b hbk
  rw [hfold.2] at hbk
  have hbb : book = b := Option.some_inj.mp hbk
  exact hbb ▸ hb

theorem cancel_ExchangeInv (ex : SimulatedExchange) (oid : ℕ)
    (hinv : ExchangeInv ex) : ExchangeInv (ex.cancel_order oid).1 := by
  unfold SimulatedExchange.cancel_order
  cases hl : lookupOrder ex.orders oid with
  | none => exact hinv
  | some o =>
    dsimp only
    split
    · exact hinv
    rename_i hterm
    refine ⟨?_, hinv.2⟩
    intro o'' ho''
    have ho2 : o'' ∈ setOrder ex.orders oid { o with status := OrderStatus.CANCELLED } := ho''
    rcases setOrder_mem o'' ho2 with rfl | ho3
    · obtain ⟨h1, h2, h3, h4, h5⟩ := hinv.1 o (lookupOrder_mem hl)
      refine ⟨h1, h2, h3, fun hF => ?_, fun hq hle => ?_⟩
      · exact absurd hF (by simp)
      · exact absurd (h5 hq hle) (fun hF => hterm (Or.inl hF))
    · exact hinv.1 o'' ho3

theorem applyOp_ExchangeInv (ex : SimulatedExchange) (op : ExchangeOp)
    (hinv : ExchangeInv ex) (hop : OpPos op) : ExchangeInv (applyOp ex op) := by
  cases op with
  | place s sd t q p => exact place_ExchangeInv ex hinv s sd t q p
  | update b => exact update_ExchangeInv ex b hinv hop
  | cancel oid => exact cancel_ExchangeInv ex oid hinv

theorem applyOps_ExchangeInv (ops : List ExchangeOp) :
    ∀ (ex : SimulatedExchange), ExchangeInv ex → (∀ op ∈ ops, OpPos op) →
    ExchangeInv (applyOps ex ops) := by
  induction ops with
  | nil => exact fun ex h _ => h
  | cons op ops ih =>
    intro ex h hops
    exact ih (applyOp ex op)
      (applyOp_ExchangeInv ex op h (hops op (List.mem_cons_self ..)))
      (fun o ho => hops o (List.mem_cons_of_mem _ ho))

theorem mk_ExchangeInv (name : String) : ExchangeInv (mkSimulatedExchange name) := by
  constructor
  · intro o ho
    simp [mkSimulatedExchange] at ho
  · intro b hb
    simp [mkSimulatedExchange] at hb


/-- C10 (amended): after any operation sequence whose book updates carry only
positive-quantity levels, every stored order's `filled_quantity` equals the
sum of its fills' quantities; it never exceeds the order quantity (for
non-negative order quantities); and for positive order quantities the status
is `FILLED` exactly when `filled_quantity` equals `quantity`. -/
theorem simulated_order_fill_invariants (name : String) (ops : List ExchangeOp)
    (hops : ∀ op ∈ ops, OpPos op) :
    ∀ o ∈ (applyOps (mkSimulatedExchange name) ops).orders,
      o.filled_quantity = fillsQ o.fills ∧
      (0 ≤ o.quantity → o.filled_quantity ≤ o.quantity) ∧
      (0 < o.quantity → (o.status = OrderStatus.FILLED ↔
        o.filled_quantity = o.quantity)) := by
  have hinv := applyOps_ExchangeInv ops (mkSimulatedExchange name)
    (mk_ExchangeInv name) hops
  intro o ho
  obtain ⟨h1, h2, h3, h4, h5⟩ := hinv.1 o ho
  exact ⟨h1, h3, fun hq => ⟨fun hF => le_antisymm (h3 (le_of_lt hq)) (h4 hF),
    fun he => h5 hq (le_of_eq he.symm)⟩⟩

/-- C10 counterexample: a zero-quantity limit order is created with status
`OPEN` and `filled_quantity = quantity = 0`, so its status is not `FILLED`
even though `filled_quantity` equals `quantity` — refuting the claim as
stated (no book update is involved, so the positive-levels proviso holds). -/
theorem simulated_order_zero_quantity_cx :
    ∃ o ∈ (applyOps (mkSimulatedExchange "sim")
        [ExchangeOp.place "s" OrderSide.BUY OrderType.LIMIT 0 (some 1)]).orders,
      o.filled_quantity = o.quantity ∧ o.status ≠ OrderStatus.FILLED := by
  refine ⟨freshOrder 0 "s" OrderSide.BUY OrderType.LIMIT (some 1) 0, ?_, rfl, by decide⟩
  simp [applyOps, applyOp, SimulatedExchange.place_order, mkSimulatedExchange,
    freshOrder]

/-- The book at rest time of the maker scenario: the best ask is 105. -/
def makerBook1 : OrderbookSnapshot :=
  { exchange := "sim", symbol := "s", timestamp := 1,
    bids := [⟨95, 5⟩], asks := [⟨105, 5⟩], sequence := 0 }

/-- The book that later takes the resting order: the best ask drops to 99. -/
def makerBook2 : OrderbookSnapshot :=
  { exchange := "sim", symbol := "s", timestamp := 2,
    bids := [⟨98, 5⟩], asks := [⟨99, 5⟩], sequence := 0 }

/-- Maker scenario: a limit buy at 100 rests strictly inside the spread
(below the best ask 105, above the best bid 95) and is taken when the next
book arrives. -/
def makerOps : List ExchangeOp :=
  [ExchangeOp.update makerBook1,
   ExchangeOp.place "s" OrderSide.BUY OrderType.LIMIT 1 (some 100),
   ExchangeOp.update makerBook2]

/-- Exchange state of the maker scenario after the order has rested. -/
def makerState2 : SimulatedExchange :=
  { exchange_name := "sim", fee_structure := ⟨2, 5⟩,
    orders := [freshOrder 0 "s" OrderSide.BUY OrderType.LIMIT (some 100) 1],
    open_ids := [0], current_book := some makerBook1, next_id := 1 }

/-- The fill produced when the resting order is taken: price 99, taker fee. -/
def makerFill : SimulatedFill :=
  { order_id := 0, timestamp := 2, price := 99, quantity := 1,
    fee := 99 / 2000, is_maker := false }

/-- The filled order of the maker scenario. -/
def makerOrderFilled : SimulatedOrder :=
  { order_id := 0, symbol := "s", side := OrderSide.BUY,
    order_type := OrderType.LIMIT, price := some 100, quantity := 1,
    filled_quantity := 1, status := OrderStatus.FILLED, fills := [makerFill] }

/-- Final exchange state of the maker scenario: the resting order was taken
at 99 with `is_maker = false`, so the taker fee `99 · 5/10000` was charged. -/
def makerState3 : SimulatedExchange :=
  { exchange_name := "sim", fee_structure := ⟨2, 5⟩,
    orders := [makerOrderFilled],
    open_ids := [], current_book := some makerBook2, next_id := 1 }

theorem mkSim_eval : mkSimulatedExchange "sim" =
    { exchange_name := "sim", fee_structure := ⟨2, 5⟩, orders := [],
      open_ids := [], current_book := none, next_id := 0 } := rfl

theorem makerScenario_step2 :
    applyOps (mkSimulatedExchange "sim") (makerOps.take 2) = makerState2 := by
  rw [show applyOps (mkSimulatedExchange "sim") (makerOps.take 2) =
    applyOp (applyOp (mkSimulatedExchange "sim") (ExchangeOp.update makerBook1))
      (ExchangeOp.place "s" OrderSide.BUY OrderType.LIMIT 1 (some 100)) from rfl]
  rw [show applyOp (mkSimulatedExchange "sim") (ExchangeOp.update makerBook1) =
    { exchange_name := "sim", fee_structure := ⟨2, 5⟩, orders := [],
      open_ids := [], current_book := some makerBook1, next_id := 0 } from rfl]
  simp only [applyOp, SimulatedExchange.place_order, makerState2]
  rw [if_neg (by decide)]
  simp only [freshOrder, try_fill_order, SimulatedOrder.remaining_quantity,
    makerBook1]
  norm_num [matchLevels, priceBlocked]

theorem makerScenario_step3 :
    applyOps (mkSimulatedExchange "sim") makerOps = makerState3 := by
  have h2 : makerOps = makerOps.take 2 ++ [ExchangeOp.update makerBook2] := by
    norm_num [makerOps]
  rw [h2, applyOps, List.foldl_append]
  rw [show List.foldl applyOp (mkSimulatedExchange "sim") (makerOps.take 2)
      = makerState2 from makerScenario_step2]
  have hpb : priceBlocked OrderType.LIMIT OrderSide.BUY (some 100)
      (⟨99, 5⟩ : OrderbookLevel) = false := by
    simp only [priceBlocked]
    simp only [decide_eq_true_eq, Bool.and_eq_false_iff, decide_eq_false_iff_not]
    right
    norm_num
  have hml : matchLevels OrderType.LIMIT OrderSide.BUY (some 100)
      [(⟨99, 5⟩ : OrderbookLevel)] (1 : ℚ) = [(99, 1)] := by
    rw [matchLevels.eq_def]
    dsimp only
    rw [if_neg (show ¬((1 : ℚ) ≤ 0) from by norm_num), hpb]
    norm_num [matchLevels, min_def]
  have hflag : makerFlag (freshOrder 0 "s" OrderSide.BUY OrderType.LIMIT
      (some 100) 1) makerBook2 = false := by
    simp only [makerFlag, OrderbookSnapshot.best_ask, OrderbookSnapshot.best_bid,
      makerBook2, freshOrder, List.head?]
    simp only [Bool.and_eq_false_iff, Bool.or_eq_false_iff, decide_eq_false_iff_not]
    right
    constructor
    · right
      norm_num
    · left
      simp
  simp only [applyOp, makerState2, makerState3, makerOrderFilled, makerFill,
    SimulatedExchange.update_orderbook, processOpenOrder, processFilled,
    lookupOrder, setOrder, try_fill_order,
    SimulatedOrder.remaining_quantity, FeeStructure.get_fee,
    OrderbookSnapshot.best_ask, OrderbookSnapshot.best_bid,
    makerBook1, makerBook2, List.filter, List.find?, List.foldl]
  simp only [freshOrder, makerBook2] at hflag
  simp only [freshOrder]
  simp [hml, hflag, mkFill, SimulatedOrder.add_fill,
    show (99 : ℚ) * ((5 : ℚ) / 10000) = 99 / 2000 from by norm_num,
    show ¬((1 : ℚ) ≤ 0) from by norm_num,
    show ¬((1 : ℚ) - 0 ≤ 0) from by norm_num,
    show (1 : ℚ) - 0 = 1 from by norm_num,
    show (1 : ℚ) ≤ 0 + 1 from by norm_num,
    show (0 : ℚ) + 1 = 1 from by norm_num,
    show (1 : ℚ) * 99 * ((5 : ℚ) / 10000) = 99 / 2000 from by norm_num,
    FeeStructure.get_fee]

/-- C2: evaluation of the simulator at the failing input.  A limit buy at 100
rests strictly inside the spread of `makerBook1` (best bid 95 < 100 < best
ask 105, status `OPEN`, no fills) and is later taken when `makerBook2`
arrives; the resulting fill carries `is_maker = false` and the taker fee
`99 · 5/10000`, although the claim (and the intent of the code's own maker
classification) says such a fill is a maker fill charged the maker rate. -/
theorem maker_limit_order_charged_taker_cx :
    (applyOps (mkSimulatedExchange "sim") (makerOps.take 2)).orders.map
      (fun o => (o.price, o.status, o.fills)) =
      [(some 100, OrderStatus.OPEN, [])] ∧
    makerBook1.best_bid = some ⟨95, 5⟩ ∧ makerBook1.best_ask = some ⟨105, 5⟩ ∧
    (applyOps (mkSimulatedExchange "sim") makerOps).orders.map
      (fun o => (o.status, o.fills.map (fun f => (f.is_maker, f.fee)))) =
      [(OrderStatus.FILLED, [(false, 99 * (5 / 10000))])] := by
  rw [makerScenario_step2, makerScenario_step3]
  refine ⟨by norm_num [makerState2, freshOrder], rfl, rfl, ?_⟩
  norm_num [makerState3, makerOrderFilled, makerFill]

/-- Every fill ever recorded by the simulated exchange carries
`is_maker = false`: the maker branch of the classification is dead code. -/
theorem simulated_fills_never_maker (name : String) (ops : List ExchangeOp) :
    ∀ o ∈ (applyOps (mkSimulatedExchange name) ops).orders,
      ∀ f ∈ o.fills, f.is_maker = false := by
  suffices h : ∀ (ex : SimulatedExchange),
      (∀ o ∈ ex.orders, ∀ f ∈ o.fills, f.is_maker = false) →
      ∀ o ∈ (applyOps ex ops).orders, ∀ f ∈ o.fills, f.is_maker = false by
    refine h (mkSimulatedExchange name) ?_
    intro o ho
    simp [mkSimulatedExchange] at ho
  induction ops with
  | nil => exact fun ex h => h
  | cons op ops ih =>
    intro ex h
    refine ih (applyOp ex op) ?_
    intro o ho f hf
    cases op with
    | place s sd t q p =>
      simp only [applyOp, SimulatedExchange.place_order] at ho
      split at ho
      · exact h o ho f hf
      · rcases List.mem_append.mp ho with ho | ho
        · exact h o ho f hf
        · rw [List.mem_singleton.mp ho] at hf
          have hbase : ∀ g ∈ (freshOrder ex.next_id s sd t p q).fills,
              g.is_maker = false := by
            intro g hg
            simp [freshOrder] at hg
          rcases hcb : ex.current_book with _ | book
          · rw [hcb] at hf
            exact hbase f hf
          · rw [hcb] at hf
            dsimp only at hf
            by_cases hsym : book.symbol = s
            · rw [if_pos hsym] at hf
              rcases try_fill_fills_not_maker ex.fee_structure _ book f hf with hold | hnew
              · exact hbase f hold
              · exact hnew
            · rw [if_neg hsym] at hf
              exact hbase f hf
    | update b =>
      simp only [applyOp, SimulatedExchange.update_orderbook] at ho
      split at ho
      · exact h o ho f hf
      · have hfold : ∀ (ids : List ℕ) (st : SimulatedExchange),
            (∀ o' ∈ st.orders, ∀ g ∈ o'.fills, g.is_maker = false) →
            ∀ o' ∈ (ids.foldl (processOpenOrder b) st).orders,
              ∀ g ∈ o'.fills, g.is_maker = false := by
          intro ids
          induction ids with
          | nil => exact fun st hst => hst
          | cons i ids ihids =>
            intro st hst
            refine ihids (processOpenOrder b st i) ?_
            intro o' ho' g hg
            simp only [processOpenOrder] at ho'
            cases hl : lookupOrder st.orders i with
            | none =>
              rw [hl] at ho'
              exact hst o' ho' g hg
            | some oo =>
              rw [hl] at ho'
              dsimp only at ho'
              by_cases hsym : oo.symbol ≠ b.symbol
              · rw [if_pos hsym] at ho'
                exact hst o' ho' g hg
              · rw [if_neg hsym] at ho'
                simp only [processFilled] at ho'
                have hmem : o' ∈ setOrder st.orders i
                    (try_fill_order st.fee_structure oo b) := by
                  split at ho' <;> exact ho'
                rcases setOrder_mem o' hmem with rfl | hold
                · rcases try_fill_fills_not_maker st.fee_structure oo b g hg
                      with holdf | hnew
                  · exact hst oo (lookupOrder_mem hl) g holdf
                  · exact hnew
                · exact hst o' hold g hg
        exact hfold ex.open_ids { ex with current_book := some b } h o ho f hf
    | cancel oid =>
      simp only [applyOp, SimulatedExchange.cancel_order] at ho
      cases hl : lookupOrder ex.orders oid with
      | none =>
        rw [hl] at ho
        exact h o ho f hf
      | some oo =>
        rw [hl] at ho
        dsimp only at ho
        split at ho
        · exact h o ho f hf
        · have hmem : o ∈ setOrder ex.orders oid
              { oo with status := OrderStatus.CANCELLED } := ho
          rcases setOrder_mem o hmem with rfl | hold
          · exact h oo (lookupOrder_mem hl) f hf
          · exact h o hold f hf


/-- Witness for `simulated_order_fill_invariants` on the concrete maker
scenario operations. -/
theorem simulated_order_fill_invariants_witness :
    (∀ op ∈ makerOps, OpPos op) ∧
    (∀ o ∈ (applyOps (mkSimulatedExchange "sim") makerOps).orders,
      o.filled_quantity = fillsQ o.fills ∧
      (0 ≤ o.quantity → o.filled_quantity ≤ o.quantity) ∧
      (0 < o.quantity → (o.status = OrderStatus.FILLED ↔
        o.filled_quantity = o.quantity))) := by
  have hops : ∀ op ∈ makerOps, OpPos op := by
    intro op hop
    simp only [makerOps, List.mem_cons, List.not_mem_nil, or_false] at hop
    rcases hop with rfl | rfl | rfl
    · refine ⟨?_, ?_⟩ <;>
        · intro l hl
          simp only [makerBook1, List.mem_singleton] at hl
          subst hl
          norm_num
    · trivial
    · refine ⟨?_, ?_⟩ <;>
        · intro l hl
          simp only [makerBook2, List.mem_singleton] at hl
          subst hl
          norm_num
  exact ⟨hops, simulated_order_fill_invariants "sim" makerOps hops⟩


/-! ## Order-book store (`InMemoryOrderbookStore` in `orderbook.py`)

A Python dict iterated in insertion order, modelled as an association list
that updates existing keys in place and appends fresh keys at the end. -/

/-- Insertion-order-preserving association update (Python dict assignment). -/
def assocUpdate {α : Type} (k : String) (v : α) :
    List (String × α) → List (String × α)
  | [] => [(k, v)]
  | (k', v') :: rest =>
    if k' = k then (k, v) :: rest else (k', v') :: assocUpdate k v rest

/-- Association lookup (Python `dict.get`). -/
def assocGet {α : Type} (k : String) : List (String × α) → Option α
  | [] => none
  | (k', v') :: rest => if k' = k then some v' else assocGet k rest

/-- The store: exchange → (symbol → latest snapshot), both in insertion
order. -/
abbrev Store := List (String × List (String × OrderbookSnapshot))

/-- `InMemoryOrderbookStore.update`. -/
def storeUpdate (s : Store) (snap : OrderbookSnapshot) : Store :=
  assocUpdate snap.exchange
    (assocUpdate snap.symbol snap ((assocGet snap.exchange s).getD [])) s

/-- `InMemoryOrderbookStore.get`. -/
def storeGet (s : Store) (exchange symbol : String) : Option OrderbookSnapshot :=
  assocGet symbol ((assocGet exchange s).getD [])

/-- `InMemoryOrderbookStore.get_all_for_symbol`: exchanges holding a book for
the symbol, in exchange insertion order. -/
def get_all_for_symbol (s : Store) (symbol : String) :
    List (String × OrderbookSnapshot) :=
  s.filterMap (fun p => (assocGet symbol p.2).map (fun b => (p.1, b)))

/-! ## Spread scanner (`BacktestEngine._find_spread_opportunity`) -/

/-- The opportunity dict built by `_find_spread_opportunity`. -/
structure SpreadInfo where
  symbol : String
  long_exchange : String
  short_exchange : String
  long_book : OrderbookSnapshot
  short_book : OrderbookSnapshot
  spread_bps : ℚ
  long_slippage : SlippageResult
  short_slippage : SlippageResult
  total_slippage_bps : ℚ
  can_execute : Bool
deriving DecidableEq

/-- Construction of the opportunity dict for a chosen pair and direction
(`backtest.py` lines 357-375 and 380-398). -/
def mkSpreadInfo (fees : FeeStructure) (size : ℚ) (symbol exL exS : String)
    (bookL bookS : OrderbookSnapshot) (spread : ℚ) : SpreadInfo :=
  let long_slip := calculate fees bookL TradeSide.BUY size
  let short_slip := calculate fees bookS TradeSide.SELL size
  { symbol := symbol, long_exchange := exL, short_exchange := exS,
    long_book := bookL, short_book := bookS, spread_bps := spread,
    long_slippage := long_slip, short_slippage := short_slip,
    total_slippage_bps := long_slip.slippage_bps + short_slip.slippage_bps,
    can_execute := !(long_slip.insufficient_liquidity ||
      short_slip.insufficient_liquidity) }

/-- The ordered pair enumeration `for i, ex1 in enumerate(exchanges): for ex2
in exchanges[i+1:]`. -/
def allPairs {α : Type} : List α → List (α × α)
  | [] => []
  | x :: xs => xs.map (fun y => (x, y)) ++ allPairs xs

/-- Comparison against the running best, which starts at `Decimal('-inf')`
(modelled as `none`). -/
def beatsBest (s : ℚ) : Option ℚ → Bool
  | none => true
  | some b => b < s

/-- One pair iteration of `_find_spread_opportunity` (`backtest.py` lines
336-398): direction 1 wins only when `spread1 > spread2` and it beats
the running best; otherwise direction 2 is taken when it beats the best. -/
def scanStep (fees : FeeStructure) (size : ℚ) (symbol : String)
    (acc : Option SpreadInfo × Option ℚ)
    (pr : (String × OrderbookSnapshot) × (String × OrderbookSnapshot)) :
    Option SpreadInfo × Option ℚ :=
  match pr.1.2.best_bid, pr.1.2.best_ask, pr.2.2.best_bid, pr.2.2.best_ask with
  | some b1, some a1, some b2, some a2 =>
    let spread1 := (b2.price - a1.price) / a1.price * 10000
    let spread2 := (b1.price - a2.price) / a2.price * 10000
    if spread2 < spread1 ∧ beatsBest spread1 acc.2 = true then
      (some (mkSpreadInfo fees size symbol pr.1.1 pr.2.1 pr.1.2 pr.2.2 spread1),
        some spread1)
    else if beatsBest spread2 acc.2 = true then
      (some (mkSpreadInfo fees size symbol pr.2.1 pr.1.1 pr.2.2 pr.1.2 spread2),
        some spread2)
    else acc
  | _, _, _, _ => acc

/-- `BacktestEngine._find_spread_opportunity` (`backtest.py` lines 315-400). -/
def find_spread_opportunity (fees : FeeStructure) (size : ℚ) (store : Store)
    (snapshot : OrderbookSnapshot) : Option SpreadInfo :=
  let books := get_all_for_symbol store snapshot.symbol
  if books.length < 2 then none
  else ((allPairs books).foldl (scanStep fees size snapshot.symbol) (none, none)).1

/-- A pair/direction candidate, for stating the claim's argmax semantics. -/
structure Combo where
  long_exchange : String
  short_exchange : String
  spread_bps : ℚ
deriving DecidableEq

/-- Both direction candidates of a venue pair; empty when either book lacks a
side, mirroring the scanner's `continue`. -/
def pairCombos (p : (String × OrderbookSnapshot) × (String × OrderbookSnapshot)) :
    List Combo :=
  match p.1.2.best_bid, p.1.2.best_ask, p.2.2.best_bid, p.2.2.best_ask with
  | some b1, some a1, some b2, some a2 =>
    [⟨p.1.1, p.2.1, (b2.price - a1.price) / a1.price * 10000⟩,
     ⟨p.2.1, p.1.1, (b1.price - a2.price) / a2.price * 10000⟩]
  | _, _, _, _ => []

/-- All pair/direction candidates in iteration order. -/
def allCombos (books : List (String × OrderbookSnapshot)) : List Combo :=
  (allPairs books).bind pairCombos

/-- Modelled from the claim's words: the first candidate in deterministic
iteration order achieving the maximal `direction_spread_bps`. -/
def firstArgmax : List Combo → Option Combo :=
  List.foldl (fun acc c =>
    match acc with
    | none => some c
    | some b => if b.spread_bps < c.spread_bps then some c else acc) none

/-- The candidate a `SpreadInfo` corresponds to. -/
def ComboMatches (c : Combo) (info : SpreadInfo) : Prop :=
  c.long_exchange = info.long_exchange ∧
  c.short_exchange = info.short_exchange ∧
  c.spread_bps = info.spread_bps


/-- Invariant of the scanner fold: the accumulator holds a candidate that
matches one of the combos seen so far and dominates all of them. -/
def accMax (acc : Option SpreadInfo × Option ℚ) (cs : List Combo) : Prop :=
  (acc.2 = none → acc.1 = none ∧ cs = []) ∧
  (∀ b, acc.2 = some b → ∃ info, acc.1 = some info ∧ info.spread_bps = b ∧
    (∃ c ∈ cs, ComboMatches c info) ∧ ∀ c ∈ cs, c.spread_bps ≤ b)

theorem scanStep_accMax (fees : FeeStructure) (size : ℚ) (symbol : String)
    (acc : Option SpreadInfo × Option ℚ) (cs : List Combo)
    (p : (String × OrderbookSnapshot) × (String × OrderbookSnapshot))
    (h : accMax acc cs) :
    accMax (scanStep fees size symbol acc p) (cs ++ pairCombos p) := by
  obtain ⟨⟨e1, book1⟩, ⟨e2, book2⟩⟩ := p
  simp only [scanStep, pairCombos]
  unfold accMax at h ⊢
  rcases hb1 : book1.best_bid with _ | b1 <;>
    rcases ha1 : book1.best_ask with _ | a1 <;>
    rcases hb2 : book2.best_bid with _ | b2 <;>
    rcases ha2 : book2.best_ask with _ | a2 <;>
    try simpa using h
  dsimp only
  set s1 : ℚ := (b2.price - a1.price) / a1.price * 10000 with hs1
  set s2 : ℚ := (b1.price - a2.price) / a2.price * 10000 with hs2
  by_cases hc1 : s2 < s1 ∧ beatsBest s1 acc.2 = true
  · rw [if_pos hc1]
    constructor
    · intro hcontra
      cases hcontra
    intro b hb
    have hb' : b = s1 := by
      injection hb with hb
      exact hb.symm
    subst hb'
    refine ⟨_, rfl, by simp [mkSpreadInfo], ?_, ?_⟩
    · refine ⟨⟨e1, e2, s1⟩, ?_, by simp [mkSpreadInfo, ComboMatches]⟩
      simp
    · intro c hc
      rcases List.mem_append.mp hc with hc | hc
      · rcases hacc : acc.2 with _ | b0
        · have := (h.1 hacc).2
          rw [this] at hc
          cases hc
        · obtain ⟨info0, _, _, _, hbound0⟩ := h.2 b0 hacc
          have hlt : b0 < s1 := by
            have := hc1.2
            rw [hacc] at this
            simpa [beatsBest] using this
          exact le_of_lt (lt_of_le_of_lt (hbound0 c hc) hlt)
      · simp only [List.mem_cons, List.not_mem_nil, or_false] at hc
        rcases hc with rfl | rfl
      
        · exact le_refl s1
        · exact le_of_lt hc1.1
  · rw [if_neg hc1]
    by_cases hc2 : beatsBest s2 acc.2 = true
    · rw [if_pos hc2]
      have hs12 : s1 ≤ s2 := by
        by_cases hlt : s2 < s1
        · exfalso
          rcases hacc : acc.2 with _ | b0
          · exact hc1 ⟨hlt, by rw [hacc]; rfl⟩
          · have hnb : ¬ (beatsBest s1 acc.2 = true) := fun hbt => hc1 ⟨hlt, hbt⟩
            rw [hacc] at hnb hc2
            simp only [beatsBest, decide_eq_true_eq] at hnb hc2
            exact hnb (lt_trans hc2 hlt)
        · exact le_of_not_lt hlt
      constructor
      · intro hcontra
        cases hcontra
      intro b hb
      have hb' : b = s2 := by
        injection hb with hb
        exact hb.symm
      subst hb'
      refine ⟨_, rfl, by simp [mkSpreadInfo], ?_, ?_⟩
      · refine ⟨⟨e2, e1, s2⟩, ?_, by simp [mkSpreadInfo, ComboMatches]⟩
        simp
      · intro c hc
        rcases List.mem_append.mp hc with hc | hc
        · rcases hacc : acc.2 with _ | b0
          · have := (h.1 hacc).2
            rw [this] at hc
            cases hc
          · obtain ⟨info0, _, _, _, hbound0⟩ := h.2 b0 hacc
            have hlt : b0 < s2 := by
              rw [hacc] at hc2
              simpa [beatsBest] using hc2
            exact le_of_lt (lt_of_le_of_lt (hbound0 c hc) hlt)
        · simp only [List.mem_cons, List.not_mem_nil, or_false] at hc
          rcases hc with rfl | rfl
          · exact hs12
          · exact le_refl s2
    · rw [if_neg hc2]
      have hne : acc.2 ≠ none := by
        intro hacc
        rw [hacc] at hc2
        exact hc2 rfl
      obtain ⟨b0, hacc⟩ : ∃ b0, acc.2 = some b0 := by
        rcases hacc : acc.2 with _ | b0
        · exact absurd hacc hne
        · exact ⟨b0, rfl⟩
      obtain ⟨info0, hi0, hsp0, hm0, hbound0⟩ := h.2 b0 hacc
      have hsb2 : s2 ≤ b0 := by
        rw [hacc] at hc2
        simp only [beatsBest, decide_eq_true_eq] at hc2
        exact le_of_not_lt hc2
      have hsb1 : s1 ≤ b0 := by
        by_cases hlt : s2 < s1
        · have hnb : ¬ (beatsBest s1 acc.2 = true) := fun hbt => hc1 ⟨hlt, hbt⟩
          rw [hacc] at hnb
          simp only [beatsBest, decide_eq_true_eq] at hnb
          exact le_of_not_lt hnb
        · exact le_trans (le_of_not_lt hlt) hsb2
      constructor
      · intro hcontra
        exact absurd hcontra hne
      intro b hb
      rw [hacc] at hb
      injection hb with hb
      subst hb
      refine ⟨info0, hi0, hsp0, ⟨?_, ?_⟩⟩
      · obtain ⟨c0, hc0, hm⟩ := hm0
        exact ⟨c0, List.mem_append_left _ hc0, hm⟩
      · intro c hc
        rcases List.mem_append.mp hc with hc | hc
        · exact hbound0 c hc
        · simp only [List.mem_cons, List.not_mem_nil, or_false] at hc
          rcases hc with rfl | rfl
          · exact hsb1
          · exact hsb2

theorem scanFold_accMax (fees : FeeStructure) (size : ℚ) (symbol : String) :
    ∀ (ps : List ((String × OrderbookSnapshot) × (String × OrderbookSnapshot)))
      (acc : Option SpreadInfo × Option ℚ) (cs : List Combo), accMax acc cs →
      accMax (ps.foldl (scanStep fees size symbol) acc) (cs ++ ps.bind pairCombos) := by
  intro ps
  induction ps with
  | nil =>
    intro acc cs h
    simpa using h
  | cons p ps ih =>
    intro acc cs h
    have hstep := scanStep_accMax fees size symbol acc cs p h
    have := ih (scanStep fees size symbol acc p) (cs ++ pairCombos p) hstep
    simpa [List.append_assoc] using this


/-- A stored book with both sides non-empty. -/
def validB (p : String × OrderbookSnapshot) : Bool :=
  !p.2.bids.isEmpty && !p.2.asks.isEmpty

/-- Two list entries satisfying a predicate yield an ordered pair in
`allPairs` whose components both satisfy it. -/
theorem countP_two_pair {α : Type} (p : α → Bool) :
    ∀ (l : List α), 2 ≤ l.countP p →
    ∃ pr ∈ allPairs l, p pr.1 = true ∧ p pr.2 = true := by
  intro l
  induction l with
  | nil => simp [List.countP_nil]
  | cons x xs ih =>
    intro h2
    by_cases hx : p x = true
    · have hcount : xs.countP p + 1 = (x :: xs).countP p :=
        (List.countP_cons_of_pos p xs hx).symm
      have h1 : 0 < xs.countP p := by omega
      obtain ⟨y, hy, hpy⟩ := List.countP_pos.mp h1
      refine ⟨(x, y), ?_, hx, hpy⟩
      simp only [allPairs, List.mem_append, List.mem_map]
      exact Or.inl ⟨y, hy, rfl⟩
    · have hcount : (x :: xs).countP p = xs.countP p := by
        rw [List.countP_cons_of_neg]
        simpa using hx
      obtain ⟨pr, hpr, hp⟩ := ih (by omega)
      refine ⟨pr, ?_, hp⟩
      simp only [allPairs, List.mem_append]
      exact Or.inr hpr

/-- A pair of two-sided books contributes exactly its two direction
candidates. -/
theorem pairCombos_of_valid {x y : String × OrderbookSnapshot}
    (hx : validB x = true) (hy : validB y = true) :
    pairCombos (x, y) =
      [⟨x.1, y.1, ((y.2.best_bid.map (fun l => l.price)).getD 0 -
          (x.2.best_ask.map (fun l => l.price)).getD 0) /
          (x.2.best_ask.map (fun l => l.price)).getD 0 * 10000⟩,
       ⟨y.1, x.1, ((x.2.best_bid.map (fun l => l.price)).getD 0 -
          (y.2.best_ask.map (fun l => l.price)).getD 0) /
          (y.2.best_ask.map (fun l => l.price)).getD 0 * 10000⟩] := by
  obtain ⟨e1, b1⟩ := x
  obtain ⟨e2, b2⟩ := y
  simp only [validB, Bool.and_eq_true, Bool.not_eq_eq_eq_not, Bool.not_true,
    List.isEmpty_eq_false_iff_exists_mem] at hx hy
  obtain ⟨⟨xb, hxb⟩, ⟨xa, hxa⟩⟩ := hx
  obtain ⟨⟨yb, hyb⟩, ⟨ya, hya⟩⟩ := hy
  rcases hb1 : b1.bids with _ | ⟨l1, r1⟩
  · rw [hb1] at hxb
    cases hxb
  rcases ha1 : b1.asks with _ | ⟨l2, r2⟩
  · rw [ha1] at hxa
    cases hxa
  rcases hb2 : b2.bids with _ | ⟨l3, r3⟩
  · rw [hb2] at hyb
    cases hyb
  rcases ha2 : b2.asks with _ | ⟨l4, r4⟩
  · rw [ha2] at hya
    cases hya
  simp [pairCombos, OrderbookSnapshot.best_bid, OrderbookSnapshot.best_ask,
    hb1, ha1, hb2, ha2]

/-- C1 (amended): whenever at least two venues hold two-sided books for the
snapshot's symbol, the scanner returns an opportunity; the returned venue
pair and direction is one of the enumerated pair/direction candidates, and
its `direction_spread_bps` is maximal among all candidates (both directions
of every unordered pair).  (Which candidate wins a tie is settled by
`scanner_tie_prefers_second_direction_cx`.) -/
theorem scanner_returns_max_spread (fees : FeeStructure) (size : ℚ)
    (store : Store) (snap : OrderbookSnapshot)
    (h2 : 2 ≤ (get_all_for_symbol store snap.symbol).countP validB) :
    ∃ info, find_spread_opportunity fees size store snap = some info ∧
      (∃ c ∈ allCombos (get_all_for_symbol store snap.symbol),
        ComboMatches c info) ∧
      ∀ c ∈ allCombos (get_all_for_symbol store snap.symbol),
        c.spread_bps ≤ info.spread_bps := by
  have hlen : ¬ ((get_all_for_symbol store snap.symbol).length < 2) := by
    have := List.countP_le_length (p := validB)
      (l := get_all_for_symbol store snap.symbol)
    omega
  have hfold := scanFold_accMax fees size snap.symbol
    (allPairs (get_all_for_symbol store snap.symbol)) (none, none) []
    ⟨fun _ => ⟨rfl, rfl⟩, fun b hb => by cases hb⟩
  rw [List.nil_append] at hfold
  obtain ⟨pr, hpr, hv1, hv2⟩ := countP_two_pair validB _ h2
  have hnonempty : allCombos (get_all_for_symbol store snap.symbol) ≠ [] := by
    intro hempty
    have hmem : pairCombos pr ≠ [] := by
      obtain ⟨x, y⟩ := pr
      rw [pairCombos_of_valid hv1 hv2]
      simp
    have : ∀ c ∈ pairCombos pr, c ∈ allCombos (get_all_for_symbol store snap.symbol) := by
      intro c hc
      exact List.mem_bind.mpr ⟨pr, hpr, hc⟩
    rcases hpc : pairCombos pr with _ | ⟨c0, rest⟩
    · exact hmem hpc
    · have := this c0 (hpc ▸ List.mem_cons_self ..)
      rw [hempty] at this
      cases this
  rcases hacc : ((allPairs (get_all_for_symbol store snap.symbol)).foldl
      (scanStep fees size snap.symbol) (none, none)).2 with _ | b
  · exact absurd (hfold.1 hacc).2 hnonempty
  obtain ⟨info, hi, hsp, hmatch, hbound⟩ := hfold.2 b hacc
  refine ⟨info, ?_, hmatch, fun c hc => hsp ▸ hbound c hc⟩
  simp only [find_spread_opportunity]
  rw [if_neg hlen]
  exact hi


/-- Identical books on two venues produce a within-pair tie between the two
directions. -/
def twinBook (ex : String) : OrderbookSnapshot :=
  { exchange := ex, symbol := "s", timestamp := 0,
    bids := [⟨100, 1⟩], asks := [⟨101, 1⟩], sequence := 0 }

/-- Store holding the twin books, venue "a" inserted first. -/
def twinStore : Store := storeUpdate (storeUpdate [] (twinBook "a")) (twinBook "b")

/-- C1 counterexample: with identical books on venues "a" (inserted first)
and "b", both directions of the single pair tie, yet the scanner returns
direction 2 (long "b" / short "a") because the `spread1 > spread2` guard
fails on a tie, while the first pair/direction candidate in deterministic
iteration order is direction 1 (long "a" / short "b"). -/
theorem scanner_tie_prefers_second_direction_cx :
    (find_spread_opportunity defaultFeeStructure 1 twinStore (twinBook "b")).map
      (fun i => (i.long_exchange, i.short_exchange)) = some ("b", "a") ∧
    (firstArgmax (allCombos (get_all_for_symbol twinStore "s"))).map
      (fun c => (c.long_exchange, c.short_exchange)) = some ("a", "b") := by
  have hga : get_all_for_symbol twinStore ((twinBook "b").symbol) =
      [("a", twinBook "a"), ("b", twinBook "b")] := rfl
  have hpairs : allPairs [("a", twinBook "a"), ("b", twinBook "b")] =
      [(("a", twinBook "a"), ("b", twinBook "b"))] := rfl
  constructor
  · simp only [find_spread_opportunity, hga, hpairs]
    rw [if_neg (by norm_num)]
    simp only [List.foldl_cons, List.foldl_nil, scanStep]
    rw [show (twinBook "a").best_bid = some ⟨100, 1⟩ from rfl,
      show (twinBook "a").best_ask = some ⟨101, 1⟩ from rfl,
      show (twinBook "b").best_bid = some ⟨100, 1⟩ from rfl,
      show (twinBook "b").best_ask = some ⟨101, 1⟩ from rfl]
    dsimp only
    rw [if_neg (by simp)]
    simp [beatsBest, mkSpreadInfo]
  · have hcombos : allCombos (get_all_for_symbol twinStore "s") =
        [⟨"a", "b", ((100 : ℚ) - 101) / 101 * 10000⟩,
         ⟨"b", "a", ((100 : ℚ) - 101) / 101 * 10000⟩] := rfl
    rw [hcombos]
    simp only [firstArgmax, List.foldl_cons, List.foldl_nil]
    rw [if_neg (by simp)]
    rfl

/-- Witness for `scanner_returns_max_spread` on the twin-book store. -/
theorem scanner_returns_max_spread_witness :
    2 ≤ (get_all_for_symbol twinStore ((twinBook "b").symbol)).countP validB ∧
    (∃ info, find_spread_opportunity defaultFeeStructure 1 twinStore
        (twinBook "b") = some info ∧
      (∃ c ∈ allCombos (get_all_for_symbol twinStore ((twinBook "b").symbol)),
        ComboMatches c info) ∧
      ∀ c ∈ allCombos (get_all_for_symbol twinStore ((twinBook "b").symbol)),
        c.spread_bps ≤ info.spread_bps) :=
  ⟨by decide, scanner_returns_max_spread defaultFeeStructure 1 twinStore
    (twinBook "b") (by decide)⟩


/-! ## Position engine and driver loop (`backtest.py`)

`uuid4()` trade identifiers are modelled by an identifier supply `idFun :
ℕ → ι` applied to a per-run counter; the engine's `SlippageCalculator()` is
created with the default fee structure.  The Python `Optional` entry prices
are always assigned at creation and are modelled as plain rationals. -/

/-- `SpreadTrade` from `backtest.py`, polymorphic in the identifier type. -/
structure SpreadTrade (ι : Type) where
  trade_id : ι
  canonical_symbol : String
  long_exchange : String
  short_exchange : String
  entry_time : ℕ
  size_in_coins : ℚ
  long_entry_price : ℚ
  short_entry_price : ℚ
  entry_spread_bps : ℚ
  exit_time : Option ℕ
  long_exit_price : Option ℚ
  short_exit_price : Option ℚ
  exit_spread_bps : Option ℚ
  gross_pnl : ℚ
  fees : ℚ
  net_pnl : ℚ
  is_open : Bool
deriving DecidableEq

/-- `BacktestConfig` (the fields the core decision logic reads). -/
structure BacktestConfig where
  start_time : ℕ
  end_time : ℕ
  exchanges : List String
  symbols : List String
  size_in_coins : ℚ
  entry_spread_threshold_bps : ℚ
  exit_spread_threshold_bps : ℚ
  max_position_hold_time : ℕ
  max_concurrent_positions : ℕ
  max_slippage_bps : ℚ
deriving DecidableEq

/-- One equity-curve sample (`_update_equity`). -/
structure EquitySample where
  timestamp : ℕ
  equity : ℚ
  peak : ℚ
  drawdown : ℚ
deriving DecidableEq

/-- The engine's mutable state during `run`. -/
structure EngineState (ι : Type) where
  store : Store
  venues : List (String × SimulatedExchange)
  open_positions : List (SpreadTrade ι)
  closed_positions : List (SpreadTrade ι)
  equity_curve : List EquitySample
  peak_equity : ℚ
  current_equity : ℚ
  spread_sum : ℚ
  slippage_sum : ℚ
  snapshot_count : ℕ
  next_seq : ℕ
deriving DecidableEq

/-- Initial engine state (`BacktestEngine.__init__` plus the local counters
of `run`). -/
def initState (ι : Type) (cfg : BacktestConfig) : EngineState ι :=
  { store := [], venues := cfg.exchanges.map (fun e => (e, mkSimulatedExchange e)),
    open_positions := [], closed_positions := [], equity_curve := [],
    peak_equity := 0, current_equity := 0, spread_sum := 0, slippage_sum := 0,
    snapshot_count := 0, next_seq := 0 }

/-- `if snapshot.exchange in self.exchanges: ... update_orderbook(snapshot)`. -/
def venuesUpdate (venues : List (String × SimulatedExchange))
    (snap : OrderbookSnapshot) : List (String × SimulatedExchange) :=
  venues.map (fun p =>
    if p.1 = snap.exchange then (p.1, p.2.update_orderbook snap) else p)

/-- `BacktestEngine._should_enter` (`backtest.py` lines 402-426). -/
def shouldEnter {ι : Type} (cfg : BacktestConfig)
    (open_positions : List (SpreadTrade ι)) (info : SpreadInfo) : Bool :=
  if open_positions.length ≥ cfg.max_concurrent_positions then false
  else if info.spread_bps < cfg.entry_spread_threshold_bps then false
  else if info.total_slippage_bps > cfg.max_slippage_bps then false
  else if !info.can_execute then false
  else if open_positions.any (fun p => p.canonical_symbol == info.symbol) then false
  else true

/-- `BacktestEngine._enter_spread` (`backtest.py` lines 428-476): the created
trade. -/
def enterSpread {ι : Type} (idFun : ℕ → ι) (seq : ℕ) (cfg : BacktestConfig)
    (info : SpreadInfo) (ts : ℕ) : SpreadTrade ι :=
  { trade_id := idFun seq, canonical_symbol := info.symbol,
    long_exchange := info.long_exchange, short_exchange := info.short_exchange,
    entry_time := ts, size_in_coins := cfg.size_in_coins,
    long_entry_price := info.long_slippage.actual_price,
    short_entry_price := info.short_slippage.actual_price,
    entry_spread_bps := info.spread_bps,
    exit_time := none, long_exit_price := none, short_exit_price := none,
    exit_spread_bps := none, gross_pnl := 0,
    fees := info.long_slippage.total_cost -
      info.long_slippage.actual_price * info.long_slippage.filled_quantity +
      info.short_slippage.total_cost -
      info.short_slippage.actual_price * info.short_slippage.filled_quantity,
    net_pnl := 0, is_open := true }

/-- `BacktestEngine._exit_spread` (`backtest.py` lines 516-565): close a
trade at the current books. -/
def exitSpread {ι : Type} (fees : FeeStructure) (trade : SpreadTrade ι)
    (ts : ℕ) (long_book short_book : OrderbookSnapshot) : SpreadTrade ι :=
  let long_exit := calculate fees long_book TradeSide.SELL trade.size_in_coins
  let short_exit := calculate fees short_book TradeSide.BUY trade.size_in_coins
  let exit_spread :=
    if long_exit.actual_price > 0 ∧ short_exit.actual_price > 0 then
      some ((long_exit.actual_price - short_exit.actual_price) /
        short_exit.actual_price * 10000)
    else trade.exit_spread_bps
  let gross := (long_exit.actual_price - trade.long_entry_price) * trade.size_in_coins +
    (trade.short_entry_price - short_exit.actual_price) * trade.size_in_coins
  let exit_fees := long_exit.total_cost -
    long_exit.actual_price * long_exit.filled_quantity +
    short_exit.total_cost - short_exit.actual_price * short_exit.filled_quantity
  let fees' := trade.fees + exit_fees
  { trade with
    exit_time := some ts,
    long_exit_price := some long_exit.actual_price,
    short_exit_price := some short_exit.actual_price,
    exit_spread_bps := exit_spread, gross_pnl := gross, fees := fees',
    net_pnl := gross - fees', is_open := false }

/-- One iteration of `BacktestEngine._check_exits` (`backtest.py` lines
478-514) for one open trade.  The Python loop iterates over a copy of the
open dict; deletion is by trade id.  The exit reason is only logged, not
stored. -/
def checkExitsStep {ι : Type} [DecidableEq ι] (cfg : BacktestConfig)
    (fees : FeeStructure) (snap : OrderbookSnapshot) (st : EngineState ι)
    (trade : SpreadTrade ι) : EngineState ι :=
  if trade.canonical_symbol ≠ snap.symbol then st
  else
    match storeGet st.store trade.long_exchange trade.canonical_symbol,
          storeGet st.store trade.short_exchange trade.canonical_symbol with
    | some long_book, some short_book =>
      let converged : Bool :=
        match long_book.best_bid, short_book.best_ask with
        | some bb, some sa =>
          decide ((bb.price - sa.price) / sa.price * 10000 ≥
            -cfg.exit_spread_threshold_bps)
        | _, _ => false
      let timed_out : Bool :=
        decide ((snap.timestamp : ℤ) - (trade.entry_time : ℤ) >
          (cfg.max_position_hold_time : ℤ))
      if converged || timed_out then
        { st with
          open_positions := st.open_positions.filter
            (fun t => t.trade_id ≠ trade.trade_id),
          closed_positions := st.closed_positions ++
            [exitSpread fees trade snap.timestamp long_book short_book] }
      else st
    | _, _ => st

/-- `BacktestEngine._check_exits`: fold over the snapshot-time copy of the
open positions. -/
def checkExits {ι : Type} [DecidableEq ι] (cfg : BacktestConfig)
    (fees : FeeStructure) (snap : OrderbookSnapshot) (st : EngineState ι) :
    EngineState ι :=
  st.open_positions.foldl (checkExitsStep cfg fees snap) st

/-- Mark-to-market of one open trade (`_update_equity`, lines 584-591). -/
def markToMarket {ι : Type} (store : Store) (trade : SpreadTrade ι) : ℚ :=
  match storeGet store trade.long_exchange trade.canonical_symbol,
        storeGet store trade.short_exchange trade.canonical_symbol with
  | some lb, some sb =>
    match lb.best_bid, sb.best_ask with
    | some bb, some sa =>
      (bb.price - trade.long_entry_price) * trade.size_in_coins +
        (trade.short_entry_price - sa.price) * trade.size_in_coins
    | _, _ => 0
  | _, _ => 0

/-- `BacktestEngine._update_equity` (`backtest.py` lines 577-604). -/
def updateEquity {ι : Type} (ts : ℕ) (st : EngineState ι) : EngineState ι :=
  let realized := (st.closed_positions.map (fun t => t.net_pnl)).sum
  let unrealized := (st.open_positions.map (markToMarket st.store)).sum
  let eq := realized + unrealized
  let peak := if eq > st.peak_equity then eq else st.peak_equity
  { st with
    current_equity := eq, peak_equity := peak,
    equity_curve := st.equity_curve ++ [⟨ts, eq, peak, peak - eq⟩] }

/-- The post-scanner phase of one driver-loop iteration (`backtest.py` lines
260-270): spread accumulation, the entry decision, and the equity update,
taking the scanner's output as an argument. -/
def enterPhase {ι : Type} (cfg : BacktestConfig) (idFun : ℕ → ι) (ts : ℕ)
    (st : EngineState ι) : Option SpreadInfo → EngineState ι
  | none => updateEquity ts st
  | some info =>
    let st3 : EngineState ι :=
      { st with spread_sum := st.spread_sum + info.spread_bps }
    let st4 : EngineState ι :=
      if shouldEnter cfg st3.open_positions info then
        { st3 with
          open_positions := st3.open_positions ++
            [enterSpread idFun st3.next_seq cfg info ts],
          next_seq := st3.next_seq + 1,
          slippage_sum := st3.slippage_sum + info.total_slippage_bps }
      else st3
    updateEquity ts st4

/-- The ingestion phase of one driver-loop iteration (`backtest.py` lines
247-253): count the snapshot and update the store and the simulated venues. -/
def ingest {ι : Type} (st : EngineState ι) (snap : OrderbookSnapshot) :
    EngineState ι :=
  { st with
    snapshot_count := st.snapshot_count + 1,
    store := storeUpdate st.store snap,
    venues := venuesUpdate st.venues snap }

/-- One iteration of the driver loop of `BacktestEngine.run` (`backtest.py`
lines 246-279): count, store update, venue update, exit checks, scan, entry,
equity. -/
def stepSnapshot {ι : Type} [DecidableEq ι] (cfg : BacktestConfig)
    (idFun : ℕ → ι) (st : EngineState ι) (snap : OrderbookSnapshot) :
    EngineState ι :=
  let st2 := checkExits cfg defaultFeeStructure snap (ingest st snap)
  enterPhase cfg idFun snap.timestamp st2
    (find_spread_opportunity defaultFeeStructure cfg.size_in_coins st2.store snap)

/-- The driver loop over the full chronological snapshot stream. -/
def processAll {ι : Type} [DecidableEq ι] (cfg : BacktestConfig)
    (idFun : ℕ → ι) (snaps : List OrderbookSnapshot) : EngineState ι :=
  snaps.foldl (stepSnapshot cfg idFun) (initState ι cfg)

/-- `BacktestResult` (the fields computed by the core; run wall-clock
timestamps omitted). -/
structure BacktestResult (ι : Type) where
  trades : List (SpreadTrade ι)
  total_trades : ℕ
  winning_trades : ℕ
  losing_trades : ℕ
  gross_pnl : ℚ
  total_fees : ℚ
  net_pnl : ℚ
  max_drawdown : ℚ
  max_drawdown_pct : ℚ
  sharpe : Option ℚ
  sortino : Option ℚ
  total_snapshots_processed : ℕ
  avg_spread_bps : ℚ
  avg_slippage_bps : ℚ
deriving DecidableEq

/-- Maximum drawdown over the equity curve (`_calculate_risk_metrics`). -/
def maxDrawdown (curve : List EquitySample) : ℚ :=
  curve.foldl (fun acc s => if s.drawdown > acc then s.drawdown else acc) 0

/-- Finalization of `BacktestEngine.run` (lines 286-303) plus
`_calculate_risk_metrics` (lines 606-647).  The `Decimal ** Decimal("0.5")`
and float `** 0.5` square roots are abstracted by `sqrtQ`. -/
def finalize {ι : Type} (cfg : BacktestConfig) (sqrtQ : ℚ → ℚ)
    (st : EngineState ι) : BacktestResult ι :=
  let trades := st.closed_positions ++ st.open_positions
  let total := trades.length
  let avg_spread : ℚ :=
    if st.snapshot_count > 0 then st.spread_sum / (st.snapshot_count : ℚ) else 0
  let avg_slip : ℚ := if total > 0 then st.slippage_sum / (total : ℚ) else 0
  let hasCurve := 2 ≤ st.equity_curve.length
  let max_dd := if hasCurve then maxDrawdown st.equity_curve else 0
  let max_dd_pct :=
    if hasCurve ∧ st.peak_equity > 0 then max_dd / st.peak_equity * 100 else 0
  let returns := trades.map (fun t => t.net_pnl)
  let riskRatios : Option ℚ × Option ℚ :=
    if hasCurve ∧ 2 ≤ trades.length then
      let avg := returns.sum / (returns.length : ℚ)
      let variance := (returns.map (fun r => (r - avg) ^ 2)).sum / (returns.length : ℚ)
      let std := sqrtQ variance
      if std > 0 then
        let days := (cfg.end_time - cfg.start_time) / 86400000000
        let tpd : ℚ := (trades.length : ℚ) / ((max 1 days : ℕ) : ℚ)
        let ann := sqrtQ (252 * tpd)
        let downside := returns.filter (fun r => r < 0)
        if downside.length > 0 then
          let dstd := sqrtQ ((downside.map (fun r => r ^ 2)).sum /
            (downside.length : ℚ))
          (some (avg / std * ann),
            if dstd > 0 then some (avg / dstd * ann) else none)
        else (some (avg / std * ann), none)
      else (none, none)
    else (none, none)
  { trades := trades, total_trades := total,
    winning_trades := (trades.filter (fun t => t.net_pnl > 0)).length,
    losing_trades := (trades.filter (fun t => t.net_pnl < 0)).length,
    gross_pnl := (trades.map (fun t => t.gross_pnl)).sum,
    total_fees := (trades.map (fun t => t.fees)).sum,
    net_pnl := (trades.map (fun t => t.net_pnl)).sum,
    max_drawdown := max_dd, max_drawdown_pct := max_dd_pct,
    sharpe := riskRatios.1, sortino := riskRatios.2,
    total_snapshots_processed := st.snapshot_count,
    avg_spread_bps := avg_spread, avg_slippage_bps := avg_slip }

/-- `BacktestEngine.run`: process the stream, then finalize. -/
def runBacktest {ι : Type} [DecidableEq ι] (cfg : BacktestConfig)
    (sqrtQ : ℚ → ℚ) (idFun : ℕ → ι) (snaps : List OrderbookSnapshot) :
    BacktestResult ι :=
  finalize cfg sqrtQ (processAll cfg idFun snaps)


/-! ## Open-position invariants (C9) -/

/-- The open-position invariant of the spec: at most
`max_concurrent_positions` open trades, at most one per canonical symbol. -/
def OpenInvL {ι : Type} (cfg : BacktestConfig) (l : List (SpreadTrade ι)) : Prop :=
  l.length ≤ cfg.max_concurrent_positions ∧
    (l.map (fun t => t.canonical_symbol)).Nodup

theorem OpenInvL_sublist {ι : Type} {cfg : BacktestConfig}
    {l l' : List (SpreadTrade ι)} (h : OpenInvL cfg l) (hs : l'.Sublist l) :
    OpenInvL cfg l' :=
  ⟨le_trans hs.length_le h.1, List.Nodup.sublist (hs.map _) h.2⟩

theorem checkExitsStep_open_sublist {ι : Type} [DecidableEq ι]
    (cfg : BacktestConfig) (fees : FeeStructure) (snap : OrderbookSnapshot)
    (st : EngineState ι) (tr : SpreadTrade ι) :
    (checkExitsStep cfg fees snap st tr).open_positions.Sublist
      st.open_positions := by
  unfold checkExitsStep
  split
  · exact List.Sublist.refl _
  · rcases storeGet st.store tr.long_exchange tr.canonical_symbol with _ | lb
    · exact List.Sublist.refl _
    · rcases storeGet st.store tr.short_exchange tr.canonical_symbol with _ | sb
      · exact List.Sublist.refl _
      · dsimp only
        split
        · exact List.filter_sublist _
        · exact List.Sublist.refl _

theorem foldl_checkExitsStep_open_sublist {ι : Type} [DecidableEq ι]
    (cfg : BacktestConfig) (fees : FeeStructure) (snap : OrderbookSnapshot) :
    ∀ (l : List (SpreadTrade ι)) (st : EngineState ι),
      (l.foldl (checkExitsStep cfg fees snap) st).open_positions.Sublist
        st.open_positions
  | [], _ => List.Sublist.refl _
  | t :: l, st =>
    (foldl_checkExitsStep_open_sublist cfg fees snap l
      (checkExitsStep cfg fees snap st t)).trans
      (checkExitsStep_open_sublist cfg fees snap st t)

theorem checkExits_open_sublist {ι : Type} [DecidableEq ι]
    (cfg : BacktestConfig) (fees : FeeStructure) (snap : OrderbookSnapshot)
    (st : EngineState ι) :
    (checkExits cfg fees snap st).open_positions.Sublist st.open_positions :=
  foldl_checkExitsStep_open_sublist cfg fees snap st.open_positions st

/-- A positive `_should_enter` certifies room for one more position and no
open position on the opportunity's symbol. -/
theorem shouldEnter_facts {ι : Type} (cfg : BacktestConfig)
    (opens : List (SpreadTrade ι)) (info : SpreadInfo)
    (h : shouldEnter cfg opens info = true) :
    opens.length < cfg.max_concurrent_positions ∧
      ∀ p ∈ opens, p.canonical_symbol ≠ info.symbol := by
  unfold shouldEnter at h
  split at h
  · simp at h
  · split at h
    · simp at h
    · split at h
      · simp at h
      · split at h
        · simp at h
        · split at h
          · simp at h
          · refine ⟨by omega, ?_⟩
            intro p hp hps
            rename_i hlen _ _ _ hany
            exact hany (List.any_eq_true.mpr ⟨p, hp, by simp [hps]⟩)

theorem enterPhase_OpenInvL {ι : Type} (cfg : BacktestConfig) (idFun : ℕ → ι)
    (ts : ℕ) (st : EngineState ι) (fo : Option SpreadInfo)
    (h : OpenInvL cfg st.open_positions) :
    OpenInvL cfg (enterPhase cfg idFun ts st fo).open_positions := by
  cases fo with
  | none => exact h
  | some info =>
    unfold enterPhase
    dsimp only
    rcases hse : shouldEnter cfg st.open_positions info with _ | _
    · simpa [updateEquity, hse] using h
    · have hf := shouldEnter_facts cfg st.open_positions info hse
      simp only [hse, if_true, updateEquity]
      refine ⟨?_, ?_⟩
      · simpa using hf.1
      · simp only [List.map_append, List.map_cons, List.map_nil,
          List.nodup_append, enterSpread]
        refine ⟨h.2, List.nodup_singleton _, ?_⟩
        intro x hx
        rcases List.mem_map.mp hx with ⟨p, hp, hps⟩
        simp only [List.mem_singleton]
        intro hcontra
        exact hf.2 p hp (by rw [← hps] at hcontra; exact hcontra)

theorem stepSnapshot_OpenInvL {ι : Type} [DecidableEq ι]
    (cfg : BacktestConfig) (idFun : ℕ → ι) (st : EngineState ι)
    (snap : OrderbookSnapshot) (h : OpenInvL cfg st.open_positions) :
    OpenInvL cfg (stepSnapshot cfg idFun st snap).open_positions := by
  unfold stepSnapshot
  dsimp only
  apply enterPhase_OpenInvL
  exact OpenInvL_sublist h (checkExits_open_sublist cfg defaultFeeStructure snap _)

theorem foldl_stepSnapshot_OpenInvL {ι : Type} [DecidableEq ι]
    (cfg : BacktestConfig) (idFun : ℕ → ι) :
    ∀ (l : List OrderbookSnapshot) (st : EngineState ι),
      OpenInvL cfg st.open_positions →
      OpenInvL cfg ((l.foldl (stepSnapshot cfg idFun) st)).open_positions
  | [], _, h => h
  | s :: l, st, h =>
    foldl_stepSnapshot_OpenInvL cfg idFun l (stepSnapshot cfg idFun st s)
      (stepSnapshot_OpenInvL cfg idFun st s h)

/-- C9: after processing every prefix of the snapshot stream, the engine
holds at most `max_concurrent_positions` open trades and at most one open
trade per canonical symbol. -/
theorem open_positions_invariant {ι : Type} [DecidableEq ι]
    (cfg : BacktestConfig) (idFun : ℕ → ι) (snaps : List OrderbookSnapshot)
    (n : ℕ) :
    (processAll cfg idFun (snaps.take n)).open_positions.length ≤
        cfg.max_concurrent_positions ∧
      ((processAll cfg idFun (snaps.take n)).open_positions.map
        (fun t => t.canonical_symbol)).Nodup :=
  foldl_stepSnapshot_OpenInvL cfg idFun (snaps.take n) (initState ι cfg)
    ⟨Nat.zero_le _, List.nodup_nil⟩


/-! ## Missing books at the exit check (C3) -/

/-- C3: when either venue's current book is missing from the store, the exit
check leaves the engine state — in particular the open-position set — fully
unchanged for that trade.  The hold-time timer is **not** consulted in that
case: the deferral lasts until both books are present, however long the
position has been held. -/
theorem missing_book_defers_exit {ι : Type} [DecidableEq ι]
    (cfg : BacktestConfig) (fees : FeeStructure) (snap : OrderbookSnapshot)
    (st : EngineState ι) (tr : SpreadTrade ι)
    (hmiss : storeGet st.store tr.long_exchange tr.canonical_symbol = none ∨
      storeGet st.store tr.short_exchange tr.canonical_symbol = none) :
    checkExitsStep cfg fees snap st tr = st := by
  unfold checkExitsStep
  split
  · rfl
  · rcases hmiss with hm | hm
    · rw [hm]
    · rw [hm]
      rcases storeGet st.store tr.long_exchange tr.canonical_symbol with _ | lb <;> rfl

/-- Concrete counterexample to the claim's final clause: a trade held far
beyond `max_position_hold_time`, with the long venue's book absent from the
store, is still not exited — the missing-book `continue` precedes the
hold-time check, so the timer never fires while a book is missing. -/
def c3Cfg : BacktestConfig :=
  { start_time := 0, end_time := 10 ^ 12, exchanges := ["a", "b"],
    symbols := ["X"], size_in_coins := 1, entry_spread_threshold_bps := 50,
    exit_spread_threshold_bps := 10, max_position_hold_time := 1,
    max_concurrent_positions := 1, max_slippage_bps := 100 }

/-- An open trade entered at time 0 on symbol `X`, long venue `a`, short
venue `b`. -/
def c3Trade : SpreadTrade ℕ :=
  { trade_id := 0, canonical_symbol := "X", long_exchange := "a",
    short_exchange := "b", entry_time := 0, size_in_coins := 1,
    long_entry_price := 100, short_entry_price := 102,
    entry_spread_bps := 200, exit_time := none, long_exit_price := none,
    short_exit_price := none, exit_spread_bps := none, gross_pnl := 0,
    fees := 1 / 10, net_pnl := 0, is_open := true }

/-- A book for symbol `X` on the short venue only; the long venue `a` has no
stored book. -/
def c3Book : OrderbookSnapshot :=
  { exchange := "b", symbol := "X", timestamp := 10 ^ 9,
    bids := [⟨102, 5⟩], asks := [⟨103, 5⟩], sequence := 0 }

/-- Engine state at the exit check: the store only holds venue `b`'s book,
and `c3Trade` has been open for `10 ^ 9` microseconds against a
`max_position_hold_time` of 1. -/
def c3State : EngineState ℕ :=
  { store := [("b", [("X", c3Book)])], venues := [], open_positions := [c3Trade],
    closed_positions := [], equity_curve := [], peak_equity := 0,
    current_equity := 0, spread_sum := 0, slippage_sum := 0,
    snapshot_count := 1, next_seq := 1 }

/-- The hold time is exceeded, the long book is missing, and yet the exit
check leaves the trade open: the claim's "exits when the timer fires even
while a book is missing" is false of the code. -/
theorem missing_book_timer_never_fires_cx :
    (c3Book.timestamp : ℤ) - (c3Trade.entry_time : ℤ) >
        (c3Cfg.max_position_hold_time : ℤ) ∧
      storeGet c3State.store c3Trade.long_exchange c3Trade.canonical_symbol =
        none ∧
      checkExitsStep c3Cfg defaultFeeStructure c3Book c3State c3Trade =
        c3State ∧
      (checkExitsStep c3Cfg defaultFeeStructure c3Book c3State
        c3Trade).open_positions = [c3Trade] := by
  refine ⟨by decide, by decide, ?_, ?_⟩ <;>
    · rw [checkExitsStep]
      rfl

/-- `missing_book_defers_exit` applied at the concrete missing-book state. -/
theorem missing_book_defers_exit_witness :
    checkExitsStep c3Cfg defaultFeeStructure c3Book c3State c3Trade = c3State :=
  missing_book_defers_exit c3Cfg defaultFeeStructure c3Book c3State c3Trade
    (Or.inl (by decide))


/-! ## Average spread accounting (C4) -/

/-- The spread credited to `spread_sum` for one scanner outcome. -/
def oppSpreadOfOption : Option SpreadInfo → ℚ
  | none => 0
  | some info => info.spread_bps

/-- Whether a scanner outcome counts as an opportunity snapshot. -/
def oppHitOfOption : Option SpreadInfo → ℕ
  | none => 0
  | some _ => 1

/-- The winning spread at one snapshot against a given store (0 when the
scanner finds nothing). -/
def oppSpread (cfg : BacktestConfig) (store : Store)
    (snap : OrderbookSnapshot) : ℚ :=
  oppSpreadOfOption
    (find_spread_opportunity defaultFeeStructure cfg.size_in_coins store snap)

/-- Replay of the engine's `spread_sum` accumulator over the stream: each
snapshot is first ingested into the store, then scanned. -/
def spreadWalk (cfg : BacktestConfig) : Store → List OrderbookSnapshot → ℚ
  | _, [] => 0
  | store, s :: rest =>
    oppSpread cfg (storeUpdate store s) s +
      spreadWalk cfg (storeUpdate store s) rest

/-- Number of snapshots at which the scanner found an opportunity. -/
def oppCountWalk (cfg : BacktestConfig) : Store → List OrderbookSnapshot → ℕ
  | _, [] => 0
  | store, s :: rest =>
    oppHitOfOption (find_spread_opportunity defaultFeeStructure
        cfg.size_in_coins (storeUpdate store s) s) +
      oppCountWalk cfg (storeUpdate store s) rest

/-- SPEC-SIDE definition, following the spec's words rather than the code:
the arithmetic mean of the winning spread over exactly those snapshots that
had an opportunity. -/
def specAvgSpreadBps (cfg : BacktestConfig)
    (snaps : List OrderbookSnapshot) : ℚ :=
  if oppCountWalk cfg [] snaps = 0 then 0
  else spreadWalk cfg [] snaps / (oppCountWalk cfg [] snaps : ℚ)

theorem checkExitsStep_sums {ι : Type} [DecidableEq ι] (cfg : BacktestConfig)
    (fees : FeeStructure) (snap : OrderbookSnapshot) (st : EngineState ι)
    (tr : SpreadTrade ι) :
    (checkExitsStep cfg fees snap st tr).store = st.store ∧
      (checkExitsStep cfg fees snap st tr).spread_sum = st.spread_sum ∧
      (checkExitsStep cfg fees snap st tr).snapshot_count =
        st.snapshot_count := by
  unfold checkExitsStep
  split
  · exact ⟨rfl, rfl, rfl⟩
  · rcases storeGet st.store tr.long_exchange tr.canonical_symbol with _ | lb
    · exact ⟨rfl, rfl, rfl⟩
    · rcases storeGet st.store tr.short_exchange tr.canonical_symbol with _ | sb
      · exact ⟨rfl, rfl, rfl⟩
      · dsimp only
        split
        · exact ⟨rfl, rfl, rfl⟩
        · exact ⟨rfl, rfl, rfl⟩

theorem foldl_checkExitsStep_sums {ι : Type} [DecidableEq ι]
    (cfg : BacktestConfig) (fees : FeeStructure) (snap : OrderbookSnapshot) :
    ∀ (l : List (SpreadTrade ι)) (st : EngineState ι),
      (l.foldl (checkExitsStep cfg fees snap) st).store = st.store ∧
        (l.foldl (checkExitsStep cfg fees snap) st).spread_sum =
          st.spread_sum ∧
        (l.foldl (checkExitsStep cfg fees snap) st).snapshot_count =
          st.snapshot_count
  | [], _ => ⟨rfl, rfl, rfl⟩
  | t :: l, st => by
    have h1 := checkExitsStep_sums cfg fees snap st t
    have h2 := foldl_checkExitsStep_sums cfg fees snap l
      (checkExitsStep cfg fees snap st t)
    exact ⟨h2.1.trans h1.1, h2.2.1.trans h1.2.1, h2.2.2.trans h1.2.2⟩

theorem checkExits_sums {ι : Type} [DecidableEq ι] (cfg : BacktestConfig)
    (fees : FeeStructure) (snap : OrderbookSnapshot) (st : EngineState ι) :
    (checkExits cfg fees snap st).store = st.store ∧
      (checkExits cfg fees snap st).spread_sum = st.spread_sum ∧
      (checkExits cfg fees snap st).snapshot_count = st.snapshot_count :=
  foldl_checkExitsStep_sums cfg fees snap st.open_positions st

theorem enterPhase_sums {ι : Type} (cfg : BacktestConfig) (idFun : ℕ → ι)
    (ts : ℕ) (st : EngineState ι) (fo : Option SpreadInfo) :
    (enterPhase cfg idFun ts st fo).store = st.store ∧
      (enterPhase cfg idFun ts st fo).spread_sum =
        st.spread_sum + oppSpreadOfOption fo ∧
      (enterPhase cfg idFun ts st fo).snapshot_count = st.snapshot_count := by
  cases fo with
  | none => exact ⟨rfl, by simp [enterPhase, updateEquity, oppSpreadOfOption], rfl⟩
  | some info =>
    unfold enterPhase
    dsimp only
    rcases shouldEnter cfg st.open_positions info with _ | _
    · exact ⟨rfl, rfl, rfl⟩
    · exact ⟨rfl, rfl, rfl⟩

theorem stepSnapshot_sums {ι : Type} [DecidableEq ι] (cfg : BacktestConfig)
    (idFun : ℕ → ι) (st : EngineState ι) (snap : OrderbookSnapshot) :
    (stepSnapshot cfg idFun st snap).store = storeUpdate st.store snap ∧
      (stepSnapshot cfg idFun st snap).spread_sum =
        st.spread_sum + oppSpread cfg (storeUpdate st.store snap) snap ∧
      (stepSnapshot cfg idFun st snap).snapshot_count =
        st.snapshot_count + 1 := by
  obtain ⟨hce1, hce2, hce3⟩ :=
    checkExits_sums cfg defaultFeeStructure snap (ingest st snap)
  obtain ⟨hep1, hep2, hep3⟩ := enterPhase_sums cfg idFun snap.timestamp
    (checkExits cfg defaultFeeStructure snap (ingest st snap))
    (find_spread_opportunity defaultFeeStructure cfg.size_in_coins
      (checkExits cfg defaultFeeStructure snap (ingest st snap)).store snap)
  refine ⟨?_, ?_, ?_⟩
  · show (enterPhase cfg idFun snap.timestamp _ _).store = _
    rw [hep1, hce1]
    rfl
  · show (enterPhase cfg idFun snap.timestamp _ _).spread_sum = _
    rw [hep2, hce2, hce1]
    rfl
  · show (enterPhase cfg idFun snap.timestamp _ _).snapshot_count = _
    rw [hep3, hce3]
    rfl

theorem foldl_stepSnapshot_sums {ι : Type} [DecidableEq ι]
    (cfg : BacktestConfig) (idFun : ℕ → ι) :
    ∀ (l : List OrderbookSnapshot) (st : EngineState ι),
      (l.foldl (stepSnapshot cfg idFun) st).store =
          l.foldl storeUpdate st.store ∧
        (l.foldl (stepSnapshot cfg idFun) st).spread_sum =
          st.spread_sum + spreadWalk cfg st.store l ∧
        (l.foldl (stepSnapshot cfg idFun) st).snapshot_count =
          st.snapshot_count + l.length
  | [], st => by
    refine ⟨rfl, ?_, rfl⟩
    show st.spread_sum = st.spread_sum + 0
    rw [add_zero]
  | s :: l, st => by
    obtain ⟨h1, h2, h3⟩ := stepSnapshot_sums cfg idFun st s
    obtain ⟨g1, g2, g3⟩ := foldl_stepSnapshot_sums cfg idFun l
      (stepSnapshot cfg idFun st s)
    refine ⟨?_, ?_, ?_⟩
    · rw [List.foldl_cons, g1, h1]
      rfl
    · rw [List.foldl_cons, g2, h2, h1]
      show _ = st.spread_sum +
        (oppSpread cfg (storeUpdate st.store s) s +
          spreadWalk cfg (storeUpdate st.store s) l)
      rw [add_assoc]
    · rw [List.foldl_cons, g3, h3]
      show st.snapshot_count + 1 + l.length = st.snapshot_count + (l.length + 1)
      omega

theorem processAll_sums {ι : Type} [DecidableEq ι] (cfg : BacktestConfig)
    (idFun : ℕ → ι) (snaps : List OrderbookSnapshot) :
    (processAll cfg idFun snaps).spread_sum = spreadWalk cfg [] snaps ∧
      (processAll cfg idFun snaps).snapshot_count = snaps.length := by
  obtain ⟨h1, h2, h3⟩ :=
    foldl_stepSnapshot_sums cfg idFun snaps (initState ι cfg)
  refine ⟨?_, ?_⟩
  · rw [processAll, h2]
    show (0 : ℚ) + spreadWalk cfg [] snaps = spreadWalk cfg [] snaps
    rw [zero_add]
  · rw [processAll, h3]
    show 0 + snaps.length = snaps.length
    rw [Nat.zero_add]

/-- The code's `avg_spread_bps`: the accumulated winning spreads divided by
the count of **all** processed snapshots. -/
theorem runBacktest_avg_spread {ι : Type} [DecidableEq ι]
    (cfg : BacktestConfig) (sqrtQ : ℚ → ℚ) (idFun : ℕ → ι)
    (snaps : List OrderbookSnapshot) :
    (runBacktest cfg sqrtQ idFun snaps).avg_spread_bps =
      if 0 < snaps.length then spreadWalk cfg [] snaps / (snaps.length : ℚ)
      else 0 := by
  obtain ⟨h1, h2⟩ := processAll_sums cfg idFun snaps
  show (finalize cfg sqrtQ (processAll cfg idFun snaps)).avg_spread_bps = _
  unfold finalize
  dsimp only
  rw [h1, h2]

/-- C4: in the final result, `avg_spread_bps` equals the accumulated winning
spreads divided by the number of ALL processed snapshots — snapshots at
which the scanner found no opportunity still count in the denominator,
contrary to the claimed opportunity-only mean (see
`avg_spread_opportunity_mean_cx`). -/
theorem avg_spread_divides_by_all_snapshots {ι : Type} [DecidableEq ι]
    (cfg : BacktestConfig) (sqrtQ : ℚ → ℚ) (idFun : ℕ → ι)
    (snaps : List OrderbookSnapshot) :
    (runBacktest cfg sqrtQ idFun snaps).avg_spread_bps =
      if 0 < snaps.length then spreadWalk cfg [] snaps / (snaps.length : ℚ)
      else 0 :=
  runBacktest_avg_spread cfg sqrtQ idFun snaps

def c4Cfg : BacktestConfig :=
  { start_time := 0, end_time := 10 ^ 12, exchanges := ["a", "b"],
    symbols := ["X"], size_in_coins := 1,
    entry_spread_threshold_bps := 10 ^ 6, exit_spread_threshold_bps := 10,
    max_position_hold_time := 10 ^ 9, max_concurrent_positions := 1,
    max_slippage_bps := 100 }

/-- First snapshot: venue "a" only — no second venue yet, no opportunity. -/
def c4Book1 : OrderbookSnapshot :=
  { exchange := "a", symbol := "X", timestamp := 0,
    bids := [⟨99, 5⟩], asks := [⟨100, 5⟩], sequence := 0 }

/-- Second snapshot: venue "b" joins — opportunity with spread 200 bps. -/
def c4Book2 : OrderbookSnapshot :=
  { exchange := "b", symbol := "X", timestamp := 1,
    bids := [⟨102, 5⟩], asks := [⟨103, 5⟩], sequence := 0 }

theorem c4_scan_first :
    find_spread_opportunity defaultFeeStructure c4Cfg.size_in_coins
      (storeUpdate [] c4Book1) c4Book1 = none := rfl

theorem c4_scan_second :
    find_spread_opportunity defaultFeeStructure c4Cfg.size_in_coins
        (storeUpdate (storeUpdate [] c4Book1) c4Book2) c4Book2 =
      some (mkSpreadInfo defaultFeeStructure c4Cfg.size_in_coins "X" "a" "b"
        c4Book1 c4Book2 (((102 : ℚ) - 100) / 100 * 10000)) := by
  have hga : get_all_for_symbol (storeUpdate (storeUpdate [] c4Book1) c4Book2)
      c4Book2.symbol = [("a", c4Book1), ("b", c4Book2)] := rfl
  have hpairs : allPairs [("a", c4Book1), ("b", c4Book2)] =
      [(("a", c4Book1), ("b", c4Book2))] := rfl
  simp only [find_spread_opportunity, hga, hpairs]
  rw [if_neg (by norm_num)]
  simp only [List.foldl_cons, List.foldl_nil, scanStep]
  rw [show c4Book1.best_bid = some ⟨99, 5⟩ from rfl,
    show c4Book1.best_ask = some ⟨100, 5⟩ from rfl,
    show c4Book2.best_bid = some ⟨102, 5⟩ from rfl,
    show c4Book2.best_ask = some ⟨103, 5⟩ from rfl]
  dsimp only
  rw [if_pos ⟨by norm_num, rfl⟩]
  rfl

theorem c4_spreadWalk :
    spreadWalk c4Cfg [] [c4Book1, c4Book2] = 200 := by
  simp only [spreadWalk, oppSpread, c4_scan_first, c4_scan_second,
    oppSpreadOfOption, mkSpreadInfo]
  norm_num

theorem c4_oppCount : oppCountWalk c4Cfg [] [c4Book1, c4Book2] = 1 := by
  simp only [oppCountWalk, c4_scan_first, c4_scan_second, oppHitOfOption]

/-- C4 counterexample: over a two-snapshot stream whose only opportunity has
spread 200 bps, the opportunity-only mean of the spec is 200, but the
engine reports `avg_spread_bps = 100` — it divides by both snapshots,
including the opportunity-free first one. -/
theorem avg_spread_opportunity_mean_cx :
    specAvgSpreadBps c4Cfg [c4Book1, c4Book2] = 200 ∧
      (runBacktest c4Cfg (fun _ => (0 : ℚ)) (fun n => n)
        [c4Book1, c4Book2]).avg_spread_bps = 100 := by
  constructor
  · rw [specAvgSpreadBps, c4_oppCount, c4_spreadWalk]
    norm_num
  · rw [runBacktest_avg_spread, if_pos (by norm_num), c4_spreadWalk]
    norm_num


/-! ## Closed-trade identities (C5) -/

/-- What the spec asserts of a closed trade, with `exit_time ≥ entry_time`
in place of the claimed strict inequality. -/
def ClosedOk {ι : Type} (t : SpreadTrade ι) : Prop :=
  t.is_open = false ∧
    ∃ et, t.exit_time = some et ∧ t.entry_time ≤ et ∧
      t.net_pnl = t.gross_pnl - t.fees ∧
      ∃ lx sx, t.long_exit_price = some lx ∧ t.short_exit_price = some sx ∧
        t.gross_pnl = (lx - t.long_entry_price) * t.size_in_coins +
          (t.short_entry_price - sx) * t.size_in_coins

theorem exitSpread_ClosedOk {ι : Type} (fees : FeeStructure)
    (trade : SpreadTrade ι) (ts : ℕ) (lb sb : OrderbookSnapshot)
    (h : trade.entry_time ≤ ts) : ClosedOk (exitSpread fees trade ts lb sb) := by
  unfold ClosedOk
  exact ⟨rfl, ts, rfl, h, rfl,
    (calculate fees lb TradeSide.SELL trade.size_in_coins).actual_price,
    (calculate fees sb TradeSide.BUY trade.size_in_coins).actual_price,
    rfl, rfl, rfl⟩

theorem checkExitsStep_ClosedOk {ι : Type} [DecidableEq ι]
    (cfg : BacktestConfig) (fees : FeeStructure) (snap : OrderbookSnapshot)
    (st : EngineState ι) (tr : SpreadTrade ι)
    (hc : ∀ t ∈ st.closed_positions, ClosedOk t)
    (ho : ∀ t ∈ st.open_positions, t.entry_time ≤ snap.timestamp)
    (htr : tr.entry_time ≤ snap.timestamp) :
    (∀ t ∈ (checkExitsStep cfg fees snap st tr).closed_positions, ClosedOk t) ∧
      ∀ t ∈ (checkExitsStep cfg fees snap st tr).open_positions,
        t.entry_time ≤ snap.timestamp := by
  unfold checkExitsStep
  split
  · exact ⟨hc, ho⟩
  · rcases storeGet st.store tr.long_exchange tr.canonical_symbol with _ | lb
    · exact ⟨hc, ho⟩
    · rcases storeGet st.store tr.short_exchange tr.canonical_symbol with _ | sb
      · exact ⟨hc, ho⟩
      · dsimp only
        split
        · constructor
          · intro t ht
            rcases List.mem_append.mp ht with h | h
            · exact hc t h
            · rw [List.mem_singleton.mp h]
              exact exitSpread_ClosedOk fees tr snap.timestamp lb sb htr
          · intro t ht
            exact ho t (List.Sublist.subset (List.filter_sublist _) ht)
        · exact ⟨hc, ho⟩

theorem foldl_checkExitsStep_ClosedOk {ι : Type} [DecidableEq ι]
    (cfg : BacktestConfig) (fees : FeeStructure) (snap : OrderbookSnapshot) :
    ∀ (l : List (SpreadTrade ι)) (st : EngineState ι),
      (∀ t ∈ st.closed_positions, ClosedOk t) →
      (∀ t ∈ st.open_positions, t.entry_time ≤ snap.timestamp) →
      (∀ t ∈ l, t.entry_time ≤ snap.timestamp) →
      (∀ t ∈ (l.foldl (checkExitsStep cfg fees snap) st).closed_positions,
          ClosedOk t) ∧
        ∀ t ∈ (l.foldl (checkExitsStep cfg fees snap) st).open_positions,
          t.entry_time ≤ snap.timestamp
  | [], _, hc, ho, _ => ⟨hc, ho⟩
  | tr :: l, st, hc, ho, hl => by
    have h1 := checkExitsStep_ClosedOk cfg fees snap st tr hc ho
      (hl tr (List.mem_cons_self tr l))
    exact foldl_checkExitsStep_ClosedOk cfg fees snap l _ h1.1 h1.2
      (fun t ht => hl t (List.mem_cons_of_mem tr ht))

theorem checkExits_ClosedOk {ι : Type} [DecidableEq ι] (cfg : BacktestConfig)
    (fees : FeeStructure) (snap : OrderbookSnapshot) (st : EngineState ι)
    (hc : ∀ t ∈ st.closed_positions, ClosedOk t)
    (ho : ∀ t ∈ st.open_positions, t.entry_time ≤ snap.timestamp) :
    (∀ t ∈ (checkExits cfg fees snap st).closed_positions, ClosedOk t) ∧
      ∀ t ∈ (checkExits cfg fees snap st).open_positions,
        t.entry_time ≤ snap.timestamp :=
  foldl_checkExitsStep_ClosedOk cfg fees snap st.open_positions st hc ho ho

theorem enterPhase_ClosedOk {ι : Type} (cfg : BacktestConfig) (idFun : ℕ → ι)
    (ts : ℕ) (st : EngineState ι) (fo : Option SpreadInfo)
    (hc : ∀ t ∈ st.closed_positions, ClosedOk t)
    (ho : ∀ t ∈ st.open_positions, t.entry_time ≤ ts) :
    (∀ t ∈ (enterPhase cfg idFun ts st fo).closed_positions, ClosedOk t) ∧
      ∀ t ∈ (enterPhase cfg idFun ts st fo).open_positions,
        t.entry_time ≤ ts := by
  cases fo with
  | none => exact ⟨hc, ho⟩
  | some info =>
    unfold enterPhase
    dsimp only
    rcases shouldEnter cfg st.open_positions info with _ | _
    · exact ⟨hc, ho⟩
    · refine ⟨hc, ?_⟩
      intro t ht
      rcases List.mem_append.mp ht with h | h
      · exact ho t h
      · rw [List.mem_singleton.mp h]
        exact le_refl ts

theorem stepSnapshot_ClosedOk {ι : Type} [DecidableEq ι]
    (cfg : BacktestConfig) (idFun : ℕ → ι) (st : EngineState ι)
    (snap : OrderbookSnapshot)
    (hc : ∀ t ∈ st.closed_positions, ClosedOk t)
    (ho : ∀ t ∈ st.open_positions, t.entry_time ≤ snap.timestamp) :
    (∀ t ∈ (stepSnapshot cfg idFun st snap).closed_positions, ClosedOk t) ∧
      ∀ t ∈ (stepSnapshot cfg idFun st snap).open_positions,
        t.entry_time ≤ snap.timestamp := by
  have h1 : (∀ t ∈ (ingest st snap).closed_positions, ClosedOk t) ∧
      ∀ t ∈ (ingest st snap).open_positions, t.entry_time ≤ snap.timestamp :=
    ⟨hc, ho⟩
  have h2 := checkExits_ClosedOk cfg defaultFeeStructure snap (ingest st snap)
    h1.1 h1.2
  exact enterPhase_ClosedOk cfg idFun snap.timestamp
    (checkExits cfg defaultFeeStructure snap (ingest st snap))
    (find_spread_opportunity defaultFeeStructure cfg.size_in_coins
      (checkExits cfg defaultFeeStructure snap (ingest st snap)).store snap)
    h2.1 h2.2

theorem foldl_stepSnapshot_ClosedOk {ι : Type} [DecidableEq ι]
    (cfg : BacktestConfig) (idFun : ℕ → ι) :
    ∀ (l : List OrderbookSnapshot) (st : EngineState ι),
      (∀ t ∈ st.closed_positions, ClosedOk t) →
      (∀ t ∈ st.open_positions, ∀ s ∈ l, t.entry_time ≤ s.timestamp) →
      List.Sorted (· ≤ ·) (l.map (fun s => s.timestamp)) →
      ∀ t ∈ (l.foldl (stepSnapshot cfg idFun) st).closed_positions, ClosedOk t
  | [], _, hc, _, _ => hc
  | s :: l, st, hc, ho, hs => by
    rcases List.sorted_cons.mp hs with ⟨hhead, htail⟩
    have hstep := stepSnapshot_ClosedOk cfg idFun st s hc
      (fun t ht => ho t ht s (List.mem_cons_self s l))
    refine foldl_stepSnapshot_ClosedOk cfg idFun l _ hstep.1 ?_ htail
    intro t ht s' hs'
    exact (hstep.2 t ht).trans (hhead _ (List.mem_map_of_mem _ hs'))

/-- C5: over a chronologically ordered snapshot stream, every trade the
engine closes has `exit_time ≥ entry_time` (equality is possible — see
`exit_time_equals_entry_time_cx`), `net_pnl = gross_pnl - fees`, and
`gross_pnl = (long_exit_px - long_entry_px) * size +
(short_entry_px - short_exit_px) * size`. -/
theorem closed_trade_identities {ι : Type} [DecidableEq ι]
    (cfg : BacktestConfig) (idFun : ℕ → ι) (snaps : List OrderbookSnapshot)
    (hsorted : List.Sorted (· ≤ ·) (snaps.map (fun s => s.timestamp))) :
    ∀ t ∈ (processAll cfg idFun snaps).closed_positions, ClosedOk t :=
  foldl_stepSnapshot_ClosedOk cfg idFun snaps (initState ι cfg)
    (fun t ht => absurd ht (List.not_mem_nil t))
    (fun t ht => absurd ht (List.not_mem_nil t)) hsorted


/-! ## Field-level step lemmas for concrete runs -/

theorem checkExits_nil {ι : Type} [DecidableEq ι] (cfg : BacktestConfig)
    (fees : FeeStructure) (snap : OrderbookSnapshot) (st : EngineState ι)
    (h : st.open_positions = []) : checkExits cfg fees snap st = st := by
  unfold checkExits
  rw [h]
  rfl

theorem enterPhase_none_fields {ι : Type} (cfg : BacktestConfig)
    (idFun : ℕ → ι) (ts : ℕ) (st : EngineState ι) :
    (enterPhase cfg idFun ts st none).open_positions = st.open_positions ∧
      (enterPhase cfg idFun ts st none).closed_positions =
        st.closed_positions ∧
      (enterPhase cfg idFun ts st none).next_seq = st.next_seq ∧
      (enterPhase cfg idFun ts st none).store = st.store :=
  ⟨rfl, rfl, rfl, rfl⟩

theorem enterPhase_entry {ι : Type} (cfg : BacktestConfig) (idFun : ℕ → ι)
    (ts : ℕ) (st : EngineState ι) (info : SpreadInfo)
    (hse : shouldEnter cfg st.open_positions info = true) :
    (enterPhase cfg idFun ts st (some info)).open_positions =
        st.open_positions ++ [enterSpread idFun st.next_seq cfg info ts] ∧
      (enterPhase cfg idFun ts st (some info)).closed_positions =
        st.closed_positions ∧
      (enterPhase cfg idFun ts st (some info)).next_seq = st.next_seq + 1 ∧
      (enterPhase cfg idFun ts st (some info)).store = st.store := by
  unfold enterPhase
  dsimp only
  rw [hse, if_pos rfl]
  refine ⟨?_, ?_, ?_, ?_⟩ <;> trivial

theorem enterPhase_no_entry {ι : Type} (cfg : BacktestConfig) (idFun : ℕ → ι)
    (ts : ℕ) (st : EngineState ι) (info : SpreadInfo)
    (hse : shouldEnter cfg st.open_positions info = false) :
    (enterPhase cfg idFun ts st (some info)).open_positions =
        st.open_positions ∧
      (enterPhase cfg idFun ts st (some info)).closed_positions =
        st.closed_positions ∧
      (enterPhase cfg idFun ts st (some info)).next_seq = st.next_seq ∧
      (enterPhase cfg idFun ts st (some info)).store = st.store := by
  unfold enterPhase
  dsimp only
  rw [hse, if_neg (by simp)]
  refine ⟨?_, ?_, ?_, ?_⟩ <;> trivial

theorem checkExits_single_exit {ι : Type} [DecidableEq ι]
    (cfg : BacktestConfig) (fees : FeeStructure) (snap : OrderbookSnapshot)
    (st : EngineState ι) (tr : SpreadTrade ι) (lb sb : OrderbookSnapshot)
    (hopen : st.open_positions = [tr])
    (hsym : tr.canonical_symbol = snap.symbol)
    (hlb : storeGet st.store tr.long_exchange tr.canonical_symbol = some lb)
    (hsb : storeGet st.store tr.short_exchange tr.canonical_symbol = some sb)
    (hcond : ((match lb.best_bid, sb.best_ask with
        | some bb, some sa =>
          decide ((bb.price - sa.price) / sa.price * 10000 ≥
            -cfg.exit_spread_threshold_bps)
        | _, _ => false) ||
      decide ((snap.timestamp : ℤ) - (tr.entry_time : ℤ) >
        (cfg.max_position_hold_time : ℤ))) = true) :
    (checkExits cfg fees snap st).open_positions = [] ∧
      (checkExits cfg fees snap st).closed_positions =
        st.closed_positions ++ [exitSpread fees tr snap.timestamp lb sb] ∧
      (checkExits cfg fees snap st).next_seq = st.next_seq ∧
      (checkExits cfg fees snap st).store = st.store := by
  have hstep : checkExitsStep cfg fees snap st tr =
      { st with
        open_positions := st.open_positions.filter
          (fun t => t.trade_id ≠ tr.trade_id),
        closed_positions := st.closed_positions ++
          [exitSpread fees tr snap.timestamp lb sb] } := by
    unfold checkExitsStep
    rw [if_neg (by simp [hsym]), hlb, hsb]
    dsimp only
    rw [if_pos hcond]
  unfold checkExits
  rw [hopen]
  simp only [List.foldl_cons, List.foldl_nil, hstep]
  refine ⟨?_, ?_, ?_, ?_⟩
  · rw [hopen]
    simp
  · trivial
  · trivial
  · trivial

theorem stepSnapshot_none_fields {ι : Type} [DecidableEq ι]
    (cfg : BacktestConfig) (idFun : ℕ → ι) (st : EngineState ι)
    (snap : OrderbookSnapshot)
    (hopen : st.open_positions = [])
    (hfo : find_spread_opportunity defaultFeeStructure cfg.size_in_coins
      (storeUpdate st.store snap) snap = none) :
    (stepSnapshot cfg idFun st snap).open_positions = [] ∧
      (stepSnapshot cfg idFun st snap).closed_positions =
        st.closed_positions ∧
      (stepSnapshot cfg idFun st snap).next_seq = st.next_seq ∧
      (stepSnapshot cfg idFun st snap).store = storeUpdate st.store snap := by
  have h2 : checkExits cfg defaultFeeStructure snap (ingest st snap) =
      ingest st snap :=
    checkExits_nil cfg defaultFeeStructure snap (ingest st snap) hopen
  have hstep : stepSnapshot cfg idFun st snap =
      enterPhase cfg idFun snap.timestamp (ingest st snap)
        (find_spread_opportunity defaultFeeStructure cfg.size_in_coins
          (ingest st snap).store snap) := by
    unfold stepSnapshot
    dsimp only
    rw [h2]
  have hfo' : find_spread_opportunity defaultFeeStructure cfg.size_in_coins
      (ingest st snap).store snap = none := hfo
  rw [hstep, hfo']
  exact ⟨hopen, rfl, rfl, rfl⟩

theorem stepSnapshot_entry_fields {ι : Type} [DecidableEq ι]
    (cfg : BacktestConfig) (idFun : ℕ → ι) (st : EngineState ι)
    (snap : OrderbookSnapshot) (info : SpreadInfo)
    (hopen : st.open_positions = [])
    (hfo : find_spread_opportunity defaultFeeStructure cfg.size_in_coins
      (storeUpdate st.store snap) snap = some info)
    (hse : shouldEnter cfg ([] : List (SpreadTrade ι)) info = true) :
    (stepSnapshot cfg idFun st snap).open_positions =
        [enterSpread idFun st.next_seq cfg info snap.timestamp] ∧
      (stepSnapshot cfg idFun st snap).closed_positions =
        st.closed_positions ∧
      (stepSnapshot cfg idFun st snap).next_seq = st.next_seq + 1 ∧
      (stepSnapshot cfg idFun st snap).store = storeUpdate st.store snap := by
  have h2 : checkExits cfg defaultFeeStructure snap (ingest st snap) =
      ingest st snap :=
    checkExits_nil cfg defaultFeeStructure snap (ingest st snap) hopen
  have hstep : stepSnapshot cfg idFun st snap =
      enterPhase cfg idFun snap.timestamp (ingest st snap)
        (find_spread_opportunity defaultFeeStructure cfg.size_in_coins
          (ingest st snap).store snap) := by
    unfold stepSnapshot
    dsimp only
    rw [h2]
  have hfo' : find_spread_opportunity defaultFeeStructure cfg.size_in_coins
      (ingest st snap).store snap = some info := hfo
  have hse' : shouldEnter cfg (ingest st snap).open_positions info = true := by
    show shouldEnter cfg st.open_positions info = true
    rw [hopen]
    exact hse
  obtain ⟨e1, e2, e3, e4⟩ :=
    enterPhase_entry cfg idFun snap.timestamp (ingest st snap) info hse'
  rw [hstep, hfo']
  refine ⟨?_, e2, e3, e4⟩
  rw [e1]
  show st.open_positions ++ [enterSpread idFun st.next_seq cfg info
    snap.timestamp] = _
  rw [hopen]
  rfl

theorem stepSnapshot_exit_fields {ι : Type} [DecidableEq ι]
    (cfg : BacktestConfig) (idFun : ℕ → ι) (st : EngineState ι)
    (snap : OrderbookSnapshot) (tr : SpreadTrade ι)
    (lb sb : OrderbookSnapshot) (info : SpreadInfo)
    (hopen : st.open_positions = [tr])
    (hsym : tr.canonical_symbol = snap.symbol)
    (hlb : storeGet (storeUpdate st.store snap) tr.long_exchange
      tr.canonical_symbol = some lb)
    (hsb : storeGet (storeUpdate st.store snap) tr.short_exchange
      tr.canonical_symbol = some sb)
    (hcond : ((match lb.best_bid, sb.best_ask with
        | some bb, some sa =>
          decide ((bb.price - sa.price) / sa.price * 10000 ≥
            -cfg.exit_spread_threshold_bps)
        | _, _ => false) ||
      decide ((snap.timestamp : ℤ) - (tr.entry_time : ℤ) >
        (cfg.max_position_hold_time : ℤ))) = true)
    (hfo : find_spread_opportunity defaultFeeStructure cfg.size_in_coins
      (storeUpdate st.store snap) snap = some info)
    (hse : shouldEnter cfg ([] : List (SpreadTrade ι)) info = false) :
    (stepSnapshot cfg idFun st snap).open_positions = [] ∧
      (stepSnapshot cfg idFun st snap).closed_positions =
        st.closed_positions ++
          [exitSpread defaultFeeStructure tr snap.timestamp lb sb] ∧
      (stepSnapshot cfg idFun st snap).next_seq = st.next_seq ∧
      (stepSnapshot cfg idFun st snap).store = storeUpdate st.store snap := by
  have hopen' : (ingest st snap).open_positions = [tr] := hopen
  have hlb' : storeGet (ingest st snap).store tr.long_exchange
      tr.canonical_symbol = some lb := hlb
  have hsb' : storeGet (ingest st snap).store tr.short_exchange
      tr.canonical_symbol = some sb := hsb
  obtain ⟨c1, c2, c3, c4⟩ := checkExits_single_exit cfg defaultFeeStructure
    snap (ingest st snap) tr lb sb hopen' hsym hlb' hsb' hcond
  have c2' : (checkExits cfg defaultFeeStructure snap
      (ingest st snap)).closed_positions =
      st.closed_positions ++
        [exitSpread defaultFeeStructure tr snap.timestamp lb sb] := c2
  have c3' : (checkExits cfg defaultFeeStructure snap
      (ingest st snap)).next_seq = st.next_seq := c3
  have c4' : (checkExits cfg defaultFeeStructure snap
      (ingest st snap)).store = storeUpdate st.store snap := c4
  have hstep : stepSnapshot cfg idFun st snap =
      enterPhase cfg idFun snap.timestamp
        (checkExits cfg defaultFeeStructure snap (ingest st snap))
        (find_spread_opportunity defaultFeeStructure cfg.size_in_coins
          (checkExits cfg defaultFeeStructure snap
            (ingest st snap)).store snap) := by
    unfold stepSnapshot
    dsimp only
  have hfo' : find_spread_opportunity defaultFeeStructure cfg.size_in_coins
      (checkExits cfg defaultFeeStructure snap (ingest st snap)).store snap =
      some info := by
    rw [c4']
    exact hfo
  have hse' : shouldEnter cfg (checkExits cfg defaultFeeStructure snap
      (ingest st snap)).open_positions info = false := by
    rw [c1]
    exact hse
  obtain ⟨e1, e2, e3, e4⟩ := enterPhase_no_entry cfg idFun snap.timestamp
    (checkExits cfg defaultFeeStructure snap (ingest st snap)) info hse'
  rw [hstep, hfo']
  exact ⟨e1.trans c1, e2.trans c2', e3.trans c3', e4.trans c4'⟩


/-! ## A concrete run that enters and closes one trade -/

def c5Cfg : BacktestConfig :=
  { start_time := 0, end_time := 10 ^ 12, exchanges := ["a", "b"],
    symbols := ["X"], size_in_coins := 1, entry_spread_threshold_bps := 150,
    exit_spread_threshold_bps := 10, max_position_hold_time := 10 ^ 9,
    max_concurrent_positions := 1, max_slippage_bps := 100 }

/-- Venue "a" at time 0: bid 99, ask 100. -/
def c5A : OrderbookSnapshot :=
  { exchange := "a", symbol := "X", timestamp := 0,
    bids := [⟨99, 5⟩], asks := [⟨100, 5⟩], sequence := 0 }

/-- Venue "b" at time 5: bid 102, ask 103 — entry spread 200 bps. -/
def c5B : OrderbookSnapshot :=
  { exchange := "b", symbol := "X", timestamp := 5,
    bids := [⟨102, 5⟩], asks := [⟨103, 5⟩], sequence := 0 }

/-- Venue "a" again, still at time 5: bid 103, ask 104 — spread converged. -/
def c5A2 : OrderbookSnapshot :=
  { exchange := "a", symbol := "X", timestamp := 5,
    bids := [⟨103, 5⟩], asks := [⟨104, 5⟩], sequence := 1 }

theorem c5_slip_entry_long :
    calculate defaultFeeStructure c5A TradeSide.BUY c5Cfg.size_in_coins =
      { expected_price := 100, actual_price := 100, slippage_abs := 0,
        slippage_bps := 0, total_cost := 100 + 100 * (5 / 10000),
        filled_quantity := 1, unfilled_quantity := 0, fills := [(100, 1)],
        insufficient_liquidity := false } := by
  have hfee : getFees defaultFeeStructure "a" = defaultFeeStructure := by decide
  norm_num [calculate, walkLevels, c5A, c5Cfg, hfee, FeeStructure.get_fee,
    show defaultFeeStructure.taker_fee_bps = 5 from rfl]

theorem c5_slip_entry_short :
    calculate defaultFeeStructure c5B TradeSide.SELL c5Cfg.size_in_coins =
      { expected_price := 102, actual_price := 102, slippage_abs := 0,
        slippage_bps := 0, total_cost := 102 + 102 * (5 / 10000),
        filled_quantity := 1, unfilled_quantity := 0, fills := [(102, 1)],
        insufficient_liquidity := false } := by
  have hfee : getFees defaultFeeStructure c5B.exchange = defaultFeeStructure :=
    by decide
  have hside : (if TradeSide.SELL = TradeSide.BUY then c5B.asks else c5B.bids) =
      [⟨102, 5⟩] := rfl
  simp only [calculate, c5Cfg, hside]
  norm_num [walkLevels, hfee, FeeStructure.get_fee,
    show defaultFeeStructure.taker_fee_bps = 5 from rfl]

theorem c5_slip_exit_long :
    calculate defaultFeeStructure c5A2 TradeSide.SELL (1 : ℚ) =
      { expected_price := 103, actual_price := 103, slippage_abs := 0,
        slippage_bps := 0, total_cost := 103 + 103 * (5 / 10000),
        filled_quantity := 1, unfilled_quantity := 0, fills := [(103, 1)],
        insufficient_liquidity := false } := by
  have hfee : getFees defaultFeeStructure c5A2.exchange = defaultFeeStructure :=
    by decide
  have hside : (if TradeSide.SELL = TradeSide.BUY then c5A2.asks else c5A2.bids) =
      [⟨103, 5⟩] := rfl
  simp only [calculate, hside]
  norm_num [walkLevels, hfee, FeeStructure.get_fee,
    show defaultFeeStructure.taker_fee_bps = 5 from rfl]

theorem c5_slip_exit_short :
    calculate defaultFeeStructure c5B TradeSide.BUY (1 : ℚ) =
      { expected_price := 103, actual_price := 103, slippage_abs := 0,
        slippage_bps := 0, total_cost := 103 + 103 * (5 / 10000),
        filled_quantity := 1, unfilled_quantity := 0, fills := [(103, 1)],
        insufficient_liquidity := false } := by
  have hfee : getFees defaultFeeStructure "b" = defaultFeeStructure :=
    by decide
  norm_num [calculate, walkLevels, c5B, hfee, FeeStructure.get_fee,
    show defaultFeeStructure.taker_fee_bps = 5 from rfl]

/-- The scanner's opportunity at the second snapshot: long "a", short "b",
spread 200 bps, no slippage. -/
def c5Info : SpreadInfo :=
  { symbol := "X", long_exchange := "a", short_exchange := "b",
    long_book := c5A, short_book := c5B, spread_bps := 200,
    long_slippage :=
      { expected_price := 100, actual_price := 100, slippage_abs := 0,
        slippage_bps := 0, total_cost := 100 + 100 * (5 / 10000),
        filled_quantity := 1, unfilled_quantity := 0, fills := [(100, 1)],
        insufficient_liquidity := false },
    short_slippage :=
      { expected_price := 102, actual_price := 102, slippage_abs := 0,
        slippage_bps := 0, total_cost := 102 + 102 * (5 / 10000),
        filled_quantity := 1, unfilled_quantity := 0, fills := [(102, 1)],
        insufficient_liquidity := false },
    total_slippage_bps := 0, can_execute := true }

theorem c5_scan_entry :
    find_spread_opportunity defaultFeeStructure c5Cfg.size_in_coins
      (storeUpdate (storeUpdate [] c5A) c5B) c5B = some c5Info := by
  have hga : get_all_for_symbol (storeUpdate (storeUpdate [] c5A) c5B)
      c5B.symbol = [("a", c5A), ("b", c5B)] := rfl
  have hpairs : allPairs [("a", c5A), ("b", c5B)] =
      [(("a", c5A), ("b", c5B))] := rfl
  simp only [find_spread_opportunity, hga, hpairs]
  rw [if_neg (by norm_num)]
  simp only [List.foldl_cons, List.foldl_nil, scanStep]
  rw [show c5A.best_bid = some ⟨99, 5⟩ from rfl,
    show c5A.best_ask = some ⟨100, 5⟩ from rfl,
    show c5B.best_bid = some ⟨102, 5⟩ from rfl,
    show c5B.best_ask = some ⟨103, 5⟩ from rfl]
  dsimp only
  rw [if_pos ⟨by norm_num, rfl⟩]
  simp only [Option.some.injEq]
  rw [show c5B.symbol = "X" from rfl]
  simp only [mkSpreadInfo, c5_slip_entry_long, c5_slip_entry_short, c5Info,
    SpreadInfo.mk.injEq]
  norm_num

theorem c5_should_enter {ι : Type} :
    shouldEnter c5Cfg ([] : List (SpreadTrade ι)) c5Info = true := by
  unfold shouldEnter
  rw [if_neg (show ¬(List.length ([] : List (SpreadTrade ι)) ≥
    c5Cfg.max_concurrent_positions) from by norm_num [c5Cfg])]
  rw [if_neg (show ¬(c5Info.spread_bps < c5Cfg.entry_spread_threshold_bps)
    from by norm_num [c5Info, c5Cfg])]
  rw [if_neg (show ¬(c5Info.total_slippage_bps > c5Cfg.max_slippage_bps)
    from by norm_num [c5Info, c5Cfg])]
  rw [if_neg (show ¬((!c5Info.can_execute) = true) from by simp [c5Info])]
  rw [if_neg (show ¬(List.any ([] : List (SpreadTrade ι))
    (fun p => p.canonical_symbol == c5Info.symbol) = true) from by simp)]

/-- The trade entered at the second snapshot. -/
def c5Entry {ι : Type} (idFun : ℕ → ι) : SpreadTrade ι :=
  { trade_id := idFun 0, canonical_symbol := "X", long_exchange := "a",
    short_exchange := "b", entry_time := 5, size_in_coins := 1,
    long_entry_price := 100, short_entry_price := 102,
    entry_spread_bps := 200, exit_time := none, long_exit_price := none,
    short_exit_price := none, exit_spread_bps := none, gross_pnl := 0,
    fees := 101 / 1000, net_pnl := 0, is_open := true }

theorem c5_enter_eq {ι : Type} (idFun : ℕ → ι) :
    enterSpread idFun 0 c5Cfg c5Info 5 = c5Entry idFun := by
  simp only [enterSpread, c5Info, c5Entry, c5Cfg, SpreadTrade.mk.injEq]
  norm_num

/-- The same trade after the convergence exit at time 5. -/
def c5Closed {ι : Type} (idFun : ℕ → ι) : SpreadTrade ι :=
  { trade_id := idFun 0, canonical_symbol := "X", long_exchange := "a",
    short_exchange := "b", entry_time := 5, size_in_coins := 1,
    long_entry_price := 100, short_entry_price := 102,
    entry_spread_bps := 200, exit_time := some 5,
    long_exit_price := some 103, short_exit_price := some 103,
    exit_spread_bps := some 0, gross_pnl := 2, fees := 51 / 250,
    net_pnl := 449 / 250, is_open := false }

theorem c5_exit_eq {ι : Type} (idFun : ℕ → ι) :
    exitSpread defaultFeeStructure (c5Entry idFun) 5 c5A2 c5B =
      c5Closed idFun := by
  simp only [exitSpread, c5Entry, c5_slip_exit_long, c5_slip_exit_short]
  rw [if_pos ⟨by norm_num, by norm_num⟩]
  simp only [c5Closed, SpreadTrade.mk.injEq]
  norm_num

/-- The post-exit rescan: both directions are non-positive; direction 2
(long "b", short "a") wins with spread 0. -/
def c5Info2 : SpreadInfo :=
  { symbol := "X", long_exchange := "b", short_exchange := "a",
    long_book := c5B, short_book := c5A2, spread_bps := 0,
    long_slippage :=
      { expected_price := 103, actual_price := 103, slippage_abs := 0,
        slippage_bps := 0, total_cost := 103 + 103 * (5 / 10000),
        filled_quantity := 1, unfilled_quantity := 0, fills := [(103, 1)],
        insufficient_liquidity := false },
    short_slippage :=
      { expected_price := 103, actual_price := 103, slippage_abs := 0,
        slippage_bps := 0, total_cost := 103 + 103 * (5 / 10000),
        filled_quantity := 1, unfilled_quantity := 0, fills := [(103, 1)],
        insufficient_liquidity := false },
    total_slippage_bps := 0, can_execute := true }

theorem c5_scan_exit :
    find_spread_opportunity defaultFeeStructure c5Cfg.size_in_coins
      (storeUpdate (storeUpdate (storeUpdate [] c5A) c5B) c5A2) c5A2 =
      some c5Info2 := by
  have hga : get_all_for_symbol
      (storeUpdate (storeUpdate (storeUpdate [] c5A) c5B) c5A2)
      c5A2.symbol = [("a", c5A2), ("b", c5B)] := rfl
  have hpairs : allPairs [("a", c5A2), ("b", c5B)] =
      [(("a", c5A2), ("b", c5B))] := rfl
  simp only [find_spread_opportunity, hga, hpairs]
  rw [if_neg (by norm_num)]
  simp only [List.foldl_cons, List.foldl_nil, scanStep]
  rw [show c5A2.best_bid = some ⟨103, 5⟩ from rfl,
    show c5A2.best_ask = some ⟨104, 5⟩ from rfl,
    show c5B.best_bid = some ⟨102, 5⟩ from rfl,
    show c5B.best_ask = some ⟨103, 5⟩ from rfl]
  dsimp only
  rw [if_neg (by rintro ⟨h, -⟩; norm_num at h)]
  rw [if_pos (show beatsBest (((103 : ℚ) - 103) / 103 * 10000) none = true
    from rfl)]
  simp only [Option.some.injEq]
  rw [show c5A2.symbol = "X" from rfl]
  simp only [mkSpreadInfo, show c5Cfg.size_in_coins = 1 from rfl,
    c5_slip_exit_long, c5_slip_exit_short, c5Info2, SpreadInfo.mk.injEq]
  norm_num

theorem c5_no_reentry {ι : Type} :
    shouldEnter c5Cfg ([] : List (SpreadTrade ι)) c5Info2 = false := by
  unfold shouldEnter
  rw [if_neg (show ¬(List.length ([] : List (SpreadTrade ι)) ≥
    c5Cfg.max_concurrent_positions) from by norm_num [c5Cfg])]
  rw [if_pos (show c5Info2.spread_bps < c5Cfg.entry_spread_threshold_bps
    from by norm_num [c5Info2, c5Cfg])]

theorem c5_exit_cond {ι : Type} (idFun : ℕ → ι) :
    ((match c5A2.best_bid, c5B.best_ask with
      | some bb, some sa =>
        decide ((bb.price - sa.price) / sa.price * 10000 ≥
          -c5Cfg.exit_spread_threshold_bps)
      | _, _ => false) ||
      decide ((c5A2.timestamp : ℤ) - ((c5Entry idFun).entry_time : ℤ) >
        (c5Cfg.max_position_hold_time : ℤ))) = true := by
  rw [show c5A2.best_bid = some ⟨103, 5⟩ from rfl,
    show c5B.best_ask = some ⟨103, 5⟩ from rfl]
  dsimp only
  rw [decide_eq_true (show ((103 : ℚ) - 103) / 103 * 10000 ≥
    -c5Cfg.exit_spread_threshold_bps from by norm_num [c5Cfg])]
  rfl

/-- Full replay of the three-snapshot run: exactly one trade, entered and
closed, both at timestamp 5. -/
theorem c5_run_closed {ι : Type} [DecidableEq ι] (idFun : ℕ → ι) :
    (processAll c5Cfg idFun [c5A, c5B, c5A2]).closed_positions =
        [c5Closed idFun] ∧
      (processAll c5Cfg idFun [c5A, c5B, c5A2]).open_positions = [] := by
  obtain ⟨o1, c1, n1, s1⟩ := stepSnapshot_none_fields c5Cfg idFun
    (initState ι c5Cfg) c5A rfl (by rfl)
  have hfo2 : find_spread_opportunity defaultFeeStructure c5Cfg.size_in_coins
      (storeUpdate (stepSnapshot c5Cfg idFun (initState ι c5Cfg) c5A).store
        c5B) c5B = some c5Info := by
    rw [s1]
    exact c5_scan_entry
  obtain ⟨o2, c2, n2, s2⟩ := stepSnapshot_entry_fields c5Cfg idFun
    (stepSnapshot c5Cfg idFun (initState ι c5Cfg) c5A) c5B c5Info o1 hfo2
    c5_should_enter
  have o2' : (stepSnapshot c5Cfg idFun
      (stepSnapshot c5Cfg idFun (initState ι c5Cfg) c5A)
      c5B).open_positions = [c5Entry idFun] := by
    rw [o2, n1]
    show [enterSpread idFun 0 c5Cfg c5Info 5] = [c5Entry idFun]
    rw [c5_enter_eq]
  have c2' : (stepSnapshot c5Cfg idFun
      (stepSnapshot c5Cfg idFun (initState ι c5Cfg) c5A)
      c5B).closed_positions = [] := c2.trans c1
  have s2' : (stepSnapshot c5Cfg idFun
      (stepSnapshot c5Cfg idFun (initState ι c5Cfg) c5A) c5B).store =
      storeUpdate (storeUpdate [] c5A) c5B := by
    rw [s2, s1]
    rfl
  have hlb3 : storeGet (storeUpdate (stepSnapshot c5Cfg idFun
      (stepSnapshot c5Cfg idFun (initState ι c5Cfg) c5A) c5B).store c5A2)
      (c5Entry idFun).long_exchange (c5Entry idFun).canonical_symbol =
      some c5A2 := by
    rw [s2']
    rfl
  have hsb3 : storeGet (storeUpdate (stepSnapshot c5Cfg idFun
      (stepSnapshot c5Cfg idFun (initState ι c5Cfg) c5A) c5B).store c5A2)
      (c5Entry idFun).short_exchange (c5Entry idFun).canonical_symbol =
      some c5B := by
    rw [s2']
    rfl
  have hfo3 : find_spread_opportunity defaultFeeStructure c5Cfg.size_in_coins
      (storeUpdate (stepSnapshot c5Cfg idFun
        (stepSnapshot c5Cfg idFun (initState ι c5Cfg) c5A) c5B).store c5A2)
      c5A2 = some c5Info2 := by
    rw [s2']
    exact c5_scan_exit
  obtain ⟨o3, c3, n3, s3⟩ := stepSnapshot_exit_fields c5Cfg idFun
    (stepSnapshot c5Cfg idFun (stepSnapshot c5Cfg idFun (initState ι c5Cfg)
      c5A) c5B) c5A2 (c5Entry idFun) c5A2 c5B c5Info2 o2' rfl hlb3 hsb3
    (c5_exit_cond idFun) hfo3 c5_no_reentry
  have hPA : processAll c5Cfg idFun [c5A, c5B, c5A2] =
      stepSnapshot c5Cfg idFun (stepSnapshot c5Cfg idFun
        (stepSnapshot c5Cfg idFun (initState ι c5Cfg) c5A) c5B) c5A2 := by
    unfold processAll
    rw [List.foldl_cons, List.foldl_cons, List.foldl_cons, List.foldl_nil]
  constructor
  · rw [hPA, c3, c2']
    show [] ++ [exitSpread defaultFeeStructure (c5Entry idFun)
      c5A2.timestamp c5A2 c5B] = [c5Closed idFun]
    rw [show c5A2.timestamp = 5 from rfl, c5_exit_eq]
    rfl
  · rw [hPA]
    exact o3

/-- C5 counterexample: a chronologically ordered run (timestamps 0, 5, 5)
whose single closed trade has `exit_time = entry_time` — the claimed strict
`exit_time > entry_time` fails when the exit-triggering snapshot carries the
same timestamp as the entry snapshot. -/
theorem exit_time_equals_entry_time_cx :
    List.Sorted (· ≤ ·) ([c5A, c5B, c5A2].map (fun s => s.timestamp)) ∧
      ∃ t ∈ (processAll c5Cfg (fun n => n) [c5A, c5B, c5A2]).closed_positions,
        t.exit_time = some t.entry_time := by
  refine ⟨by decide, c5Closed (fun n => n), ?_, rfl⟩
  rw [(@c5_run_closed ℕ _ (fun n => n)).1]
  exact List.mem_singleton.mpr rfl

/-- `closed_trade_identities` applied to the concrete sorted run. -/
theorem closed_trade_identities_witness :
    List.Sorted (· ≤ ·) ([c5A, c5B, c5A2].map (fun s => s.timestamp)) ∧
      ∀ t ∈ (processAll c5Cfg (fun n => n) [c5A, c5B, c5A2]).closed_positions,
        ClosedOk t :=
  ⟨by decide,
    closed_trade_identities c5Cfg (fun n => n) [c5A, c5B, c5A2] (by decide)⟩


/-! ## Determinism up to trade identifiers (C6)

The only run-to-run nondeterminism in the engine core is `str(uuid4())` in
`_enter_spread`.  Renaming the identifier supply maps through the whole run;
erasing the identifiers (mapping them to `Unit`) therefore yields identical
results for any two injective supplies. -/

/-- Rename a trade's identifier. -/
def mapTrade {ι κ : Type} (g : ι → κ) (t : SpreadTrade ι) : SpreadTrade κ :=
  { trade_id := g t.trade_id, canonical_symbol := t.canonical_symbol,
    long_exchange := t.long_exchange, short_exchange := t.short_exchange,
    entry_time := t.entry_time, size_in_coins := t.size_in_coins,
    long_entry_price := t.long_entry_price,
    short_entry_price := t.short_entry_price,
    entry_spread_bps := t.entry_spread_bps, exit_time := t.exit_time,
    long_exit_price := t.long_exit_price,
    short_exit_price := t.short_exit_price,
    exit_spread_bps := t.exit_spread_bps, gross_pnl := t.gross_pnl,
    fees := t.fees, net_pnl := t.net_pnl, is_open := t.is_open }

/-- Rename all trade identifiers in an engine state. -/
def mapState {ι κ : Type} (g : ι → κ) (st : EngineState ι) : EngineState κ :=
  { store := st.store, venues := st.venues,
    open_positions := st.open_positions.map (mapTrade g),
    closed_positions := st.closed_positions.map (mapTrade g),
    equity_curve := st.equity_curve, peak_equity := st.peak_equity,
    current_equity := st.current_equity, spread_sum := st.spread_sum,
    slippage_sum := st.slippage_sum, snapshot_count := st.snapshot_count,
    next_seq := st.next_seq }

/-- Rename all trade identifiers in a result. -/
def mapResult {ι κ : Type} (g : ι → κ) (r : BacktestResult ι) :
    BacktestResult κ :=
  { trades := r.trades.map (mapTrade g), total_trades := r.total_trades,
    winning_trades := r.winning_trades, losing_trades := r.losing_trades,
    gross_pnl := r.gross_pnl, total_fees := r.total_fees,
    net_pnl := r.net_pnl, max_drawdown := r.max_drawdown,
    max_drawdown_pct := r.max_drawdown_pct, sharpe := r.sharpe,
    sortino := r.sortino,
    total_snapshots_processed := r.total_snapshots_processed,
    avg_spread_bps := r.avg_spread_bps,
    avg_slippage_bps := r.avg_slippage_bps }

theorem mapTrade_exitSpread {ι κ : Type} (g : ι → κ) (fees : FeeStructure)
    (t : SpreadTrade ι) (ts : ℕ) (lb sb : OrderbookSnapshot) :
    mapTrade g (exitSpread fees t ts lb sb) =
      exitSpread fees (mapTrade g t) ts lb sb := rfl

theorem mapTrade_enterSpread {ι κ : Type} (g : ι → κ) (idFun : ℕ → ι)
    (seq : ℕ) (cfg : BacktestConfig) (info : SpreadInfo) (ts : ℕ) :
    mapTrade g (enterSpread idFun seq cfg info ts) =
      enterSpread (fun n => g (idFun n)) seq cfg info ts := rfl

theorem shouldEnter_map {ι κ : Type} (g : ι → κ) (cfg : BacktestConfig)
    (l : List (SpreadTrade ι)) (info : SpreadInfo) :
    shouldEnter cfg (l.map (mapTrade g)) info = shouldEnter cfg l info := by
  unfold shouldEnter
  rw [List.length_map]
  rw [show (l.map (mapTrade g)).any
      (fun p => p.canonical_symbol == info.symbol) =
      l.any (fun p => p.canonical_symbol == info.symbol) from by
    induction l with
    | nil => rfl
    | cons t l ih => simp [List.any_cons, ih, mapTrade]]

theorem updateEquity_map {ι κ : Type} (g : ι → κ) (ts : ℕ)
    (st : EngineState ι) :
    updateEquity ts (mapState g st) = mapState g (updateEquity ts st) := by
  unfold updateEquity mapState
  dsimp only
  rw [List.map_map, List.map_map]
  rfl

theorem checkExitsStep_map {ι κ : Type} [DecidableEq ι] [DecidableEq κ]
    {g : ι → κ} (hg : Function.Injective g) (cfg : BacktestConfig)
    (fees : FeeStructure) (snap : OrderbookSnapshot) (st : EngineState ι)
    (tr : SpreadTrade ι) :
    checkExitsStep cfg fees snap (mapState g st) (mapTrade g tr) =
      mapState g (checkExitsStep cfg fees snap st tr) := by
  unfold checkExitsStep
  by_cases hsym : tr.canonical_symbol ≠ snap.symbol
  · rw [if_pos hsym,
      if_pos (show (mapTrade g tr).canonical_symbol ≠ snap.symbol from hsym)]
  · rw [if_neg hsym,
      if_neg (show ¬(mapTrade g tr).canonical_symbol ≠ snap.symbol from hsym)]
    rw [show (mapState g st).store = st.store from rfl,
      show (mapTrade g tr).long_exchange = tr.long_exchange from rfl,
      show (mapTrade g tr).short_exchange = tr.short_exchange from rfl,
      show (mapTrade g tr).canonical_symbol = tr.canonical_symbol from rfl]
    rcases storeGet st.store tr.long_exchange tr.canonical_symbol with _ | lb
    · rfl
    · rcases storeGet st.store tr.short_exchange tr.canonical_symbol
        with _ | sb
      · rfl
      · dsimp only
        rw [show (mapTrade g tr).entry_time = tr.entry_time from rfl]
        by_cases hcond : ((match lb.best_bid, sb.best_ask with
            | some bb, some sa =>
              decide ((bb.price - sa.price) / sa.price * 10000 ≥
                -cfg.exit_spread_threshold_bps)
            | _, _ => false) ||
          decide ((snap.timestamp : ℤ) - (tr.entry_time : ℤ) >
            (cfg.max_position_hold_time : ℤ))) = true
        · rw [if_pos hcond, if_pos hcond]
          unfold mapState
          dsimp only
          rw [show (mapTrade g tr).trade_id = g tr.trade_id from rfl]
          rw [List.filter_map, List.map_append]
          rw [show ((fun t : SpreadTrade κ =>
              decide (t.trade_id ≠ g tr.trade_id)) ∘ mapTrade g) =
              (fun t : SpreadTrade ι => decide (t.trade_id ≠ tr.trade_id))
            from by
              funext t
              simp [Function.comp, mapTrade, hg.ne_iff]]
          rw [List.map_cons, List.map_nil, mapTrade_exitSpread]
        · rw [if_neg hcond, if_neg hcond]

theorem foldl_checkExitsStep_map {ι κ : Type} [DecidableEq ι] [DecidableEq κ]
    {g : ι → κ} (hg : Function.Injective g) (cfg : BacktestConfig)
    (fees : FeeStructure) (snap : OrderbookSnapshot) :
    ∀ (l : List (SpreadTrade ι)) (st : EngineState ι),
      (l.map (mapTrade g)).foldl (checkExitsStep cfg fees snap)
          (mapState g st) =
        mapState g (l.foldl (checkExitsStep cfg fees snap) st)
  | [], _ => rfl
  | t :: l, st => by
    rw [List.map_cons, List.foldl_cons, List.foldl_cons,
      checkExitsStep_map hg]
    exact foldl_checkExitsStep_map hg cfg fees snap l
      (checkExitsStep cfg fees snap st t)

theorem checkExits_map {ι κ : Type} [DecidableEq ι] [DecidableEq κ]
    {g : ι → κ} (hg : Function.Injective g) (cfg : BacktestConfig)
    (fees : FeeStructure) (snap : OrderbookSnapshot) (st : EngineState ι) :
    checkExits cfg fees snap (mapState g st) =
      mapState g (checkExits cfg fees snap st) := by
  unfold checkExits
  rw [show (mapState g st).open_positions =
    st.open_positions.map (mapTrade g) from rfl]
  exact foldl_checkExitsStep_map hg cfg fees snap st.open_positions st

theorem enterPhase_map {ι κ : Type} (g : ι → κ) (cfg : BacktestConfig)
    (idFun : ℕ → ι) (ts : ℕ) (st : EngineState ι) (fo : Option SpreadInfo) :
    enterPhase cfg (fun n => g (idFun n)) ts (mapState g st) fo =
      mapState g (enterPhase cfg idFun ts st fo) := by
  cases fo with
  | none => exact updateEquity_map g ts st
  | some info =>
    unfold enterPhase
    dsimp only
    rw [show (mapState g st).open_positions =
      st.open_positions.map (mapTrade g) from rfl, shouldEnter_map]
    rcases hse : shouldEnter cfg st.open_positions info with _ | _
    · rw [if_neg (by simp), if_neg (by simp)]
      exact updateEquity_map g ts
        { st with spread_sum := st.spread_sum + info.spread_bps }
    · rw [if_pos rfl, if_pos rfl]
      refine Eq.trans ?_ (updateEquity_map g ts _)
      refine congrArg (updateEquity ts) ?_
      unfold mapState
      dsimp only
      rw [List.map_append, List.map_cons, List.map_nil, mapTrade_enterSpread]

theorem stepSnapshot_map {ι κ : Type} [DecidableEq ι] [DecidableEq κ]
    {g : ι → κ} (hg : Function.Injective g) (cfg : BacktestConfig)
    (idFun : ℕ → ι) (st : EngineState ι) (snap : OrderbookSnapshot) :
    stepSnapshot cfg (fun n => g (idFun n)) (mapState g st) snap =
      mapState g (stepSnapshot cfg idFun st snap) := by
  have hingest : ingest (mapState g st) snap = mapState g (ingest st snap) :=
    rfl
  have hce : checkExits cfg defaultFeeStructure snap
      (mapState g (ingest st snap)) =
      mapState g (checkExits cfg defaultFeeStructure snap (ingest st snap)) :=
    checkExits_map hg cfg defaultFeeStructure snap (ingest st snap)
  unfold stepSnapshot
  dsimp only
  rw [hingest, hce]
  rw [show (mapState g (checkExits cfg defaultFeeStructure snap
    (ingest st snap))).store =
    (checkExits cfg defaultFeeStructure snap (ingest st snap)).store from rfl]
  exact enterPhase_map g cfg idFun snap.timestamp _ _

theorem foldl_stepSnapshot_map {ι κ : Type} [DecidableEq ι] [DecidableEq κ]
    {g : ι → κ} (hg : Function.Injective g) (cfg : BacktestConfig)
    (idFun : ℕ → ι) :
    ∀ (l : List OrderbookSnapshot) (st : EngineState ι),
      l.foldl (stepSnapshot cfg (fun n => g (idFun n))) (mapState g st) =
        mapState g (l.foldl (stepSnapshot cfg idFun) st)
  | [], _ => rfl
  | s :: l, st => by
    rw [List.foldl_cons, List.foldl_cons, stepSnapshot_map hg]
    exact foldl_stepSnapshot_map hg cfg idFun l (stepSnapshot cfg idFun st s)

theorem processAll_map {ι κ : Type} [DecidableEq ι] [DecidableEq κ]
    {g : ι → κ} (hg : Function.Injective g) (cfg : BacktestConfig)
    (idFun : ℕ → ι) (snaps : List OrderbookSnapshot) :
    processAll cfg (fun n => g (idFun n)) snaps =
      mapState g (processAll cfg idFun snaps) := by
  unfold processAll
  rw [show (initState κ cfg) = mapState g (initState ι cfg) from rfl]
  exact foldl_stepSnapshot_map hg cfg idFun snaps (initState ι cfg)

theorem finalize_map {ι κ : Type} (g : ι → κ) (cfg : BacktestConfig)
    (sqrtQ : ℚ → ℚ) (st : EngineState ι) :
    finalize cfg sqrtQ (mapState g st) =
      mapResult g (finalize cfg sqrtQ st) := by
  unfold finalize mapResult mapState
  dsimp only
  rw [← List.map_append]
  simp only [List.map_map, List.length_map, List.filter_map]
  rfl

/-- `result.trades` is the closed list followed by the still-open list. -/
theorem finalize_trades {ι : Type} (cfg : BacktestConfig) (sqrtQ : ℚ → ℚ)
    (st : EngineState ι) :
    (finalize cfg sqrtQ st).trades =
      st.closed_positions ++ st.open_positions := rfl

theorem mapResult_comp {ι κ μ : Type} (g : κ → μ) (f : ι → κ)
    (r : BacktestResult ι) :
    mapResult g (mapResult f r) = mapResult (fun x => g (f x)) r := by
  unfold mapResult
  dsimp only
  rw [List.map_map]
  rfl

/-- C6: for any two injective identifier supplies, the two runs agree on
everything once trade identifiers are erased — identical statistics and
identical trades up to the `uuid4()` trade ids.  (The literal claim of
byte-identical trades fails: see `identical_runs_different_trades_cx`.) -/
theorem backtest_deterministic_up_to_ids {ι κ : Type} [DecidableEq ι]
    [DecidableEq κ] (cfg : BacktestConfig) (sqrtQ : ℚ → ℚ) (id1 : ℕ → ι)
    (id2 : ℕ → κ) (h1 : Function.Injective id1)
    (h2 : Function.Injective id2) (snaps : List OrderbookSnapshot) :
    mapResult (fun _ => ()) (runBacktest cfg sqrtQ id1 snaps) =
      mapResult (fun _ => ()) (runBacktest cfg sqrtQ id2 snaps) := by
  have e1 : runBacktest cfg sqrtQ id1 snaps =
      mapResult id1 (runBacktest cfg sqrtQ (fun n : ℕ => n) snaps) := by
    unfold runBacktest
    rw [show processAll cfg id1 snaps =
      processAll cfg (fun n => id1 ((fun m : ℕ => m) n)) snaps from rfl]
    rw [processAll_map h1, finalize_map]
  have e2 : runBacktest cfg sqrtQ id2 snaps =
      mapResult id2 (runBacktest cfg sqrtQ (fun n : ℕ => n) snaps) := by
    unfold runBacktest
    rw [show processAll cfg id2 snaps =
      processAll cfg (fun n => id2 ((fun m : ℕ => m) n)) snaps from rfl]
    rw [processAll_map h2, finalize_map]
  rw [e1, e2, mapResult_comp, mapResult_comp]

/-- `backtest_deterministic_up_to_ids` at two concrete injective supplies on
the three-snapshot stream. -/
theorem backtest_deterministic_up_to_ids_witness :
    Function.Injective (fun n : ℕ => n) ∧
      Function.Injective (fun n : ℕ => n + 1) ∧
      mapResult (fun _ => ()) (runBacktest c5Cfg (fun _ => (0 : ℚ))
          (fun n : ℕ => n) [c5A, c5B, c5A2]) =
        mapResult (fun _ => ()) (runBacktest c5Cfg (fun _ => (0 : ℚ))
          (fun n : ℕ => n + 1) [c5A, c5B, c5A2]) :=
  ⟨fun a b h => h, fun a b h => Nat.succ_injective h,
    backtest_deterministic_up_to_ids c5Cfg (fun _ => (0 : ℚ))
      (fun n : ℕ => n) (fun n : ℕ => n + 1) (fun a b h => h)
      (fun a b h => Nat.succ_injective h) [c5A, c5B, c5A2]⟩

/-- C6 counterexample: the same snapshot stream and configuration, run
twice with distinct (injective) identifier supplies — the model of two real
runs, whose `uuid4()` draws differ — produce different `result.trades`:
the trades differ in their `trade_id`. -/
theorem identical_runs_different_trades_cx :
    (runBacktest c5Cfg (fun _ => (0 : ℚ)) (fun n : ℕ => n)
        [c5A, c5B, c5A2]).trades ≠
      (runBacktest c5Cfg (fun _ => (0 : ℚ)) (fun n : ℕ => n + 1)
        [c5A, c5B, c5A2]).trades := by
  have h1 : (runBacktest c5Cfg (fun _ => (0 : ℚ)) (fun n : ℕ => n)
      [c5A, c5B, c5A2]).trades = [c5Closed (fun n : ℕ => n)] := by
    rw [runBacktest, finalize_trades, (@c5_run_closed ℕ _ (fun n => n)).1,
      (@c5_run_closed ℕ _ (fun n => n)).2]
    rfl
  have h2 : (runBacktest c5Cfg (fun _ => (0 : ℚ)) (fun n : ℕ => n + 1)
      [c5A, c5B, c5A2]).trades = [c5Closed (fun n : ℕ => n + 1)] := by
    rw [runBacktest, finalize_trades, (@c5_run_closed ℕ _ (fun n => n + 1)).1,
      (@c5_run_closed ℕ _ (fun n => n + 1)).2]
    rfl
  rw [h1, h2]
  intro h
  simp [c5Closed] at h

end FuturesArb
